import Mathlib

/- Verification of the time-tracking core of the horas-extras-app repository.

The JavaScript source is shallowly embedded:

* JS strings become `List Char` (abbreviated `Chars`); string literals of the
  source are written with `String.data`.
* JS numbers holding integral minute or millisecond counts become `Int`/`Nat`.
* A value handed to `new Date(...)` as a timestamp becomes the three-way type
  `TimeInput`: absent (`""`/null), present but unparseable (invalid date), or
  parsing to an instant counted in milliseconds.
* The host clock and timezone are modelled as one fixed local timezone (the
  app formats times in America/Sao_Paulo and parses in the host zone; both are
  the same zone here, so instants are local-epoch milliseconds; the epoch of
  the model is 0000-03-01, which only shifts every instant by a constant).
* Floating-point display-only rescalings (`Number((x/60).toFixed(2))` in the
  chart dataset) are kept in integer minutes, which preserves zeroness, sign
  and every comparison the statements below depend on; statistics computed
  with JS floats (`Math.sqrt`) are idealised over the reals. -/

namespace HorasExtras


abbrev Chars := List Char

/-! ### Characters, digits and decimal rendering -/

/-- Digit character for a value `0..9`, as produced by JS number rendering. -/
def digitChar (d : Nat) : Char := Char.ofNat (48 + d)

/-- Decimal digit test (`0`-`9`), by code point. -/
def isDigitChar (c : Char) : Bool := 48 ≤ c.toNat && c.toNat ≤ 57

/-- Whitespace as stripped by JS `String.prototype.trim` (the subset that can
occur in this pipeline). -/
def isWS (c : Char) : Bool := c = ' ' || c = '\t' || c = '\n' || c = '\r'

/-- Decimal rendering of a natural number (JS template `${n}`), with explicit
fuel so the recursion is structural; `natStr` supplies enough fuel. -/
def natChars : Nat → Nat → Chars
  | 0, _ => []
  | f + 1, n => if n < 10 then [digitChar n] else natChars f (n / 10) ++ [digitChar (n % 10)]

/-- Decimal rendering of a natural number, `${n}` in JS. -/
def natStr (n : Nat) : Chars := natChars (n + 1) n

/-- Two-digit zero-padded rendering, `String(n).padStart(2, "0")`. -/
def pad2 (n : Nat) : Chars := if n < 10 then '0' :: natStr n else natStr n

/-! ### Digit sequences and `parseInt` -/

/-- One step of decimal accumulation while reading digits left to right. -/
def digitStep (a : Nat) (c : Char) : Nat := a * 10 + (c.toNat - 48)

/-- Value of a run of decimal digit characters. -/
def digitsVal (s : Chars) : Nat := s.foldl digitStep 0

/-- JS `parseInt(str)`: skip leading whitespace and an optional sign, then
read a nonempty run of decimal digits; anything else is NaN (`none`). -/
def parseIntJS (s : Chars) : Option Int :=
  match s.dropWhile isWS with
  | [] => none
  | c :: rest =>
    if c = '-' then
      let ds := rest.takeWhile isDigitChar
      if ds = [] then none else some (-(digitsVal ds : Int))
    else if c = '+' then
      let ds := rest.takeWhile isDigitChar
      if ds = [] then none else some (digitsVal ds : Int)
    else
      let ds := (c :: rest).takeWhile isDigitChar
      if ds = [] then none else some (digitsVal ds : Int)

/-- Strict all-digits reading, modelling the `Date` constructor's treatment of
one numeric component of a canonical ISO date string. -/
def parseDigitsStrict (s : Chars) : Option Nat :=
  if s ≠ [] ∧ s.all isDigitChar = true then some (digitsVal s) else none

/-! ### Splitting and joining on a separator character -/

/-- JS `str.split(sep)` for a one-character separator. -/
def splitSepList (sep : Char) : Chars → List Chars
  | [] => [[]]
  | c :: rest =>
    match splitSepList sep rest with
    | [] => [[]]
    | h :: t => if c = sep then [] :: h :: t else (c :: h) :: t

/-- JS `parts.join(sep)` for a one-character separator. -/
def joinSep (sep : Char) : List Chars → Chars
  | [] => []
  | [l] => l
  | l :: ls => l ++ sep :: joinSep sep ls

/-! ### Trimming -/

/-- JS `str.trim()`. -/
def trimChars (s : Chars) : Chars := ((s.dropWhile isWS).reverse.dropWhile isWS).reverse

/-! ### Substring search -/

/-- Whether the first list is an initial segment of the second. -/
def leadsList : Chars → Chars → Bool
  | [], _ => true
  | _ :: _, [] => false
  | a :: as, b :: bs => a = b && leadsList as bs

/-- JS `str.includes(needle)`: substring containment. -/
def containsSub (needle : Chars) : Chars → Bool
  | [] => leadsList needle []
  | c :: rest => leadsList needle (c :: rest) || containsSub needle rest

/-! ### The civil calendar as computed by the JS `Date` object -/

/-- Gregorian leap-year test. -/
def bissexto (ano : Nat) : Bool := ano % 4 = 0 && (ano % 100 ≠ 0 || ano % 400 = 0)

/-- Number of days of month `mes` (0-based, as the app stores months) of year
`ano`; the value of `new Date(ano, mes + 1, 0).getDate()`. -/
def diasNoMes (mes ano : Nat) : Nat :=
  [31, if bissexto ano then 29 else 28, 31, 30, 31, 30, 31, 31, 30, 31, 30, 31].getD mes 0

/-- Day count of the civil date `y-m-d` (month 1..12) since 0000-03-01, the
standard days-from-civil correspondence underlying `Date`. -/
def daysFromCivil (y m d : Nat) : Nat :=
  let y' := if m ≤ 2 then y - 1 else y
  let m' := if m ≤ 2 then m + 9 else m - 3
  let era := y' / 400
  let yoe := y' % 400
  let doy := (153 * m' + 2) / 5 + (d - 1)
  let doe := yoe * 365 + yoe / 4 - yoe / 100 + doy
  era * 146097 + doe

/-- Weekday index of a civil date as returned by `Date.prototype.getDay`
(0 = Sunday .. 6 = Saturday); 1970-01-01 is a Thursday (4). -/
def diaSemana (ano mes dia : Nat) : Nat := (daysFromCivil ano mes dia + 3) % 7

/-- The template `${ano}-${mes 2-padded}-${dia 2-padded}`: a canonical
`YYYY-MM-DD` date string. -/
def isoChars (y m d : Nat) : Chars := natStr y ++ '-' :: (pad2 m ++ '-' :: pad2 d)

/-- Local-midnight instant of a civil date, in model milliseconds. -/
def midnightMs (y m d : Nat) : Int := (daysFromCivil y m d : Int) * 86400000

/-- Minute of the day (0..1439) of an instant, as read back through
`getHours`/`getMinutes` or formatted by `toLocaleTimeString`. -/
def minuteOfDay (t : Int) : Int := t / 60000 % 1440

/-- Validity of the `Date` constructor on a string `YYYY-MM-DD` + "T00:00:00":
three dash-separated all-digit components forming an in-range civil date. -/
def parseISODate (s : Chars) : Option (Nat × Nat × Nat) :=
  match splitSepList '-' s with
  | [ys, ms, ds] =>
    match parseDigitsStrict ys, parseDigitsStrict ms, parseDigitsStrict ds with
    | some y, some m, some d =>
      if 1 ≤ m ∧ m ≤ 12 ∧ 1 ≤ d ∧ d ≤ diasNoMes (m - 1) y then some (y, m, d) else none
    | _, _, _ => none
  | _ => none

/-! ### Data model -/

/-- A value handed to `new Date(...)` as a timestamp: absent (`""` / null),
present but unparseable (an invalid date), or parseable to an instant in
(local-epoch) milliseconds. -/
inductive TimeInput
  | vazio
  | invalido
  | valido (ms : Int)
  deriving DecidableEq, Repr

/-- One day record, as stored under the `registrosHorasExtras` storage key:
`{ id, data: "YYYY-MM-DD", entrada: ISO timestamp or "", saida: likewise }`. -/
structure Registro where
  id : Chars
  data : Chars
  entrada : TimeInput
  saida : TimeInput
  deriving DecidableEq, Repr

/-- DateUtils.calcularHorasTrabalhadas: 0 when either timestamp is absent,
either is unparseable, or exit precedes entry; otherwise the floor of the
millisecond difference divided by 60000. -/
def calcularHorasTrabalhadas (entrada saida : TimeInput) : Int :=
  match entrada, saida with
  | .valido e, .valido s =>
    let diferencaMs := s - e
    if diferencaMs < 0 then 0 else diferencaMs / 60000
  | _, _ => 0

/-! ### Schedule registry (constants.js) -/

/-- One work-schedule profile of `ESCALAS_TRABALHO`. -/
structure Escala where
  id : Chars
  nome : Chars
  descricao : Chars
  horasPorDia : Int
  diasUteis : List Nat
  horasSemana : Nat
  personalizavel : Bool := false
  deriving DecidableEq, Repr

/-- The static schedule registry of constants.js. -/
def ESCALAS_TRABALHO : List Escala := [
  { id := "escala_5x2_8h".data
    nome := "5x2 - 8h/dia".data
    descricao := "Segunda a Sexta, 8 horas por dia".data
    horasPorDia := 8 * 60
    diasUteis := [1, 2, 3, 4, 5]
    horasSemana := 40 },
  { id := "escala_6x1_7h".data
    nome := "6x1 - 7h/dia".data
    descricao := "Segunda a Sábado, 7 horas por dia".data
    horasPorDia := 7 * 60
    diasUteis := [1, 2, 3, 4, 5, 6]
    horasSemana := 42 },
  { id := "escala_5x2_6h".data
    nome := "5x2 - 6h/dia".data
    descricao := "Segunda a Sexta, 6 horas por dia".data
    horasPorDia := 6 * 60
    diasUteis := [1, 2, 3, 4, 5]
    horasSemana := 30 },
  { id := "escala_personalizada".data
    nome := "Personalizada".data
    descricao := "Configurar horários personalizados".data
    horasPorDia := 7 * 60
    diasUteis := [1, 2, 3, 4, 5, 6]
    horasSemana := 42
    personalizavel := true }]

/-- The designated default schedule id (constants.js ESCALA_PADRAO). -/
def ESCALA_PADRAO : Chars := "escala_6x1_7h".data

/-- The hard-coded fallback object of obterEscalaInfo, used only if the
registry were empty. -/
def escalaFallback : Escala :=
  { id := "fallback".data
    nome := "Padrão".data
    descricao := "Escala padrão de fallback".data
    horasPorDia := 420
    diasUteis := [1, 2, 3, 4, 5, 6]
    horasSemana := 42 }

/-- DateUtils.obterEscalaInfo: an absent or empty id is replaced by
ESCALA_PADRAO, then the registry is searched; an unsuccessful search falls
back to the first registry entry (or the hard-coded object). -/
def obterEscalaInfo (escalaId : Option Chars) : Escala :=
  let eid := match escalaId with
    | some s => if s = [] then ESCALA_PADRAO else s
    | none => ESCALA_PADRAO
  match ESCALAS_TRABALHO.find? (fun e => e.id == eid) with
  | some escala => escala
  | none => ESCALAS_TRABALHO.headD escalaFallback

/-- DateUtils.obterDiasUteis: loop over every day of the month, counting the
days whose weekday belongs to the schedule's working-weekday list. -/
def obterDiasUteis (mes ano : Nat) (escalaId : Option Chars) : Nat :=
  let escalaInfo := obterEscalaInfo escalaId
  let n := diasNoMes mes ano
  (List.range n).foldl
    (fun diasUteis i =>
      if escalaInfo.diasUteis.contains (diaSemana ano (mes + 1) (i + 1)) then diasUteis + 1
      else diasUteis)
    0

/-! ### Formatting helpers (dateUtils.js) -/

/-- DateUtils.formatarMinutos: `0` renders as `0:00h`, otherwise
sign + hours + ":" + two-padded minutes + "h" over the absolute value. -/
def formatarMinutos (minutos : Int) : Chars :=
  if minutos = 0 then "0:00h".data
  else
    let horas := minutos.natAbs / 60
    let minutosRestantes := minutos.natAbs % 60
    let sinal : Chars := if minutos < 0 then "-".data else if 0 < minutos then "+".data else []
    sinal ++ natStr horas ++ ':' :: (pad2 minutosRestantes ++ "h".data)

/-- DateUtils.formatarHora: an absent or unparseable timestamp renders as "";
an instant renders as its local `HH:MM`. -/
def formatarHora (hora : TimeInput) : Chars :=
  match hora with
  | .valido t =>
    let mod := (minuteOfDay t).toNat
    pad2 (mod / 60) ++ ':' :: pad2 (mod % 60)
  | _ => []

/-- DateUtils.formatarData: a parseable `YYYY-MM-DD` renders as the pt-BR
`DD/MM/YYYY`; anything else renders as "". -/
def formatarData (data : Chars) : Chars :=
  match parseISODate data with
  | some (y, m, d) => pad2 d ++ '/' :: (pad2 m ++ '/' :: natStr y)
  | none => []

/-! ### Month filter and monthly summary (useData.js / App.jsx) -/

/-- The records of the viewed month: those whose date parses and has
`getMonth() = mesAtual` and `getFullYear() = anoAtual`.  The source
additionally sorts this list by date; every property verified below is
invariant under the ordering, so the sort is not modelled. -/
def registrosMes (registros : List Registro) (mesAtual anoAtual : Nat) : List Registro :=
  registros.filter (fun reg =>
    match parseISODate reg.data with
    | some (y, m, _) => m - 1 == mesAtual && y == anoAtual
    | none => false)

/-- The monthly summary (`resumo`).  The display-only field
`percentualCumprido` (a `toFixed(1)` string) is not modelled. -/
structure Resumo where
  totalExtras : Int
  totalDebito : Int
  saldoFinal : Int
  horasTrabalhadasTotal : Int
  diasUteis : Nat
  diasTrabalhados : Nat
  horasEsperadas : Int
  deriving DecidableEq, Repr

/-- One iteration of the `registrosMes.forEach` accumulation of useData's
`resumo`: state is (total worked, overtime bucket, deficit bucket). -/
def resumoStep (horasPorDia : Int) (acc : Int × Int × Int) (registro : Registro) :
    Int × Int × Int :=
  let horasTrabalhadas := calcularHorasTrabalhadas registro.entrada registro.saida
  let total := acc.1 + horasTrabalhadas
  let diferenca := horasTrabalhadas - horasPorDia
  if 0 < horasTrabalhadas then
    if 0 < diferenca then (total, acc.2.1 + diferenca, acc.2.2)
    else if diferenca < 0 then (total, acc.2.1, acc.2.2 + |diferenca|)
    else (total, acc.2.1, acc.2.2)
  else (total, acc.2.1, acc.2.2)

/-- DateUtils.calcularHorasEsperadas: business days times daily target. -/
def calcularHorasEsperadas (mes ano : Nat) (escalaId : Option Chars) : Int :=
  (obterDiasUteis mes ano escalaId : Int) * (obterEscalaInfo escalaId).horasPorDia

/-- The monthly summary computed by useData's `resumo` memo over the records
of the viewed month (`registrosDoMes` is the already-filtered list). -/
def resumoMes (registrosDoMes : List Registro) (mesAtual anoAtual : Nat)
    (escalaId : Option Chars) : Resumo :=
  let escalaInfo := obterEscalaInfo escalaId
  let acc := registrosDoMes.foldl (resumoStep escalaInfo.horasPorDia) (0, 0, 0)
  { totalExtras := acc.2.1
    totalDebito := acc.2.2
    saldoFinal := acc.2.1 - acc.2.2
    horasTrabalhadasTotal := acc.1
    diasUteis := obterDiasUteis mesAtual anoAtual escalaId
    diasTrabalhados := registrosDoMes.length
    horasEsperadas := calcularHorasEsperadas mesAtual anoAtual escalaId }

/-- App.adicionarRegistro / DataService.adicionarRegistro: refuse when the
business-day quota of the viewed month is reached, else append one record
with today's date (or day 1 of the viewed month) and empty times.  `hoje` is
the civil date of `new Date()`; `novoId` the generated unique id. -/
def adicionarRegistro (registros : List Registro) (mesAtual anoAtual : Nat)
    (escalaId : Option Chars) (hoje : Nat × Nat × Nat) (novoId : Chars) : List Registro :=
  let resumo := resumoMes (registrosMes registros mesAtual anoAtual) mesAtual anoAtual escalaId
  if resumo.diasUteis ≤ resumo.diasTrabalhados then registros
  else
    let ehMesAtual := hoje.2.1 - 1 == mesAtual && hoje.1 == anoAtual
    let dataParaUsar := if ehMesAtual then hoje else (anoAtual, mesAtual + 1, 1)
    let dataFormatada := isoChars dataParaUsar.1 dataParaUsar.2.1 dataParaUsar.2.2
    registros ++ [{ id := novoId, data := dataFormatada, entrada := .vazio, saida := .vazio }]

/-! ### Chart dataset (DateUtils.gerarDadosGraficos) -/

/-- One chart point.  The source scales the worked/overtime/deficit fields to
decimal hours with `Number((x/60).toFixed(2))`, a display rescaling that
preserves zeroness and sign; the embedding keeps the underlying minutes.
The display-only `produtividade` percentage is not modelled. -/
structure DadoDia where
  dia : Nat
  data : Chars
  dataCompleta : Chars
  horasTrabalhadas : Int
  horasExtras : Int
  horasDebito : Int
  meta : Int
  temRegistro : Bool
  status : Chars
  deriving DecidableEq, Repr

/-- The loop body of DateUtils.gerarDadosGraficos: the chart point of one
calendar day (1-based `dia`). -/
def dadoDoDia (registros : List Registro) (mes ano : Nat) (escalaId : Option Chars)
    (dia : Nat) : DadoDia :=
  let metaDiaria := (obterEscalaInfo escalaId).horasPorDia
  let dataISO := isoChars ano (mes + 1) dia
  let registroEncontrado := registros.find? (fun registro => registro.data == dataISO)
  let horasTrabalhadasMinutos :=
    match registroEncontrado with
    | some registro => calcularHorasTrabalhadas registro.entrada registro.saida
    | none => 0
  let diferencaMinutos :=
    if 0 < horasTrabalhadasMinutos then horasTrabalhadasMinutos - metaDiaria else 0
  { dia := dia
    data := pad2 dia ++ '/' :: pad2 (mes + 1)
    dataCompleta := dataISO
    horasTrabalhadas := horasTrabalhadasMinutos
    horasExtras := if 0 < diferencaMinutos then diferencaMinutos else 0
    horasDebito := if diferencaMinutos < 0 then |diferencaMinutos| else 0
    meta := metaDiaria
    temRegistro := registroEncontrado.isSome
    status :=
      if horasTrabalhadasMinutos = 0 then "sem-registro".data
      else if 0 < diferencaMinutos then "extras".data
      else if diferencaMinutos < 0 then "debito".data
      else "meta".data }

/-- DateUtils.gerarDadosGraficos: one point per calendar day 1..daysInMonth,
looking up the record whose `data` equals the day's ISO string. -/
def gerarDadosGraficos (registros : List Registro) (mes ano : Nat)
    (escalaId : Option Chars) : List DadoDia :=
  (List.range (diasNoMes mes ano)).map (fun i => dadoDoDia registros mes ano escalaId (i + 1))

/-! ### Statistics (DateUtils.calcularEstatisticas)

JS floats are idealised over the reals; the six returned fields are integers
(`Math.round`/counts/max/min over integral minute values). -/

/-- The qualifying daily durations: worked minutes of each record, keeping
only the strictly positive ones. -/
def jornadasValidas (registros : List Registro) : List Int :=
  (registros.map (fun registro => calcularHorasTrabalhadas registro.entrada registro.saida)).filter
    (fun horas => 0 < horas)

structure Estatisticas where
  mediaDiaria : Int
  maiorJornada : Int
  menorJornada : Int
  diasAcimaMeta : Nat
  diasAbaixoMeta : Nat
  consistencia : Int
  deriving DecidableEq, Repr

/-- The all-zero result returned when no qualifying record exists. -/
def estatisticasVazias : Estatisticas :=
  { mediaDiaria := 0, maiorJornada := 0, menorJornada := 0,
    diasAcimaMeta := 0, diasAbaixoMeta := 0, consistencia := 0 }

noncomputable def mediaReal (jornadas : List Int) : ℝ :=
  (jornadas.sum : ℝ) / jornadas.length

noncomputable def varianciaReal (jornadas : List Int) : ℝ :=
  (jornadas.map (fun horas => ((horas : ℝ) - mediaReal jornadas) ^ 2)).sum / jornadas.length

noncomputable def desvioPadraoReal (jornadas : List Int) : ℝ :=
  Real.sqrt (varianciaReal jornadas)

/-- The consistency value before `Math.round`: 0 initially; for two or more
durations and positive mean, `max(0, min(100, 100 - cv*100))`; for a single
duration, 100. -/
noncomputable def consistenciaReal (jornadas : List Int) : ℝ :=
  if 1 < jornadas.length then
    if 0 < mediaReal jornadas then
      max 0 (min 100 (100 - desvioPadraoReal jornadas / mediaReal jornadas * 100))
    else 0
  else 100

/-- DateUtils.calcularEstatisticas. -/
noncomputable def calcularEstatisticas (registros : List Registro)
    (escalaId : Option Chars) : Estatisticas :=
  match registros with
  | [] => estatisticasVazias
  | _ :: _ =>
    let escalaInfo := obterEscalaInfo escalaId
    let jornadas := jornadasValidas registros
    if jornadas = [] then estatisticasVazias
    else
      { mediaDiaria := round (mediaReal jornadas)
        maiorJornada := jornadas.foldl max (jornadas.headD 0)
        menorJornada := jornadas.foldl min (jornadas.headD 0)
        diasAcimaMeta := (jornadas.filter (fun horas => escalaInfo.horasPorDia < horas)).length
        diasAbaixoMeta := (jornadas.filter (fun horas => horas < escalaInfo.horasPorDia)).length
        consistencia := round (consistenciaReal jornadas) }

/-- Modelled from the claim's wording for comparison with the code: the
consistency score as `max(0, 100 - 100 * stddev/mean)` of the qualifying
daily durations, with no rounding and no cap. -/
noncomputable def consistenciaSpec (jornadas : List Int) : ℝ :=
  max 0 (100 - 100 * desvioPadraoReal jornadas / mediaReal jornadas)

/-! ### CSV export (DataService.exportarDados) -/

/-- Quote one CSV field: the template `"${campo}"`. -/
def quoteField (campo : Chars) : Chars := '"' :: (campo ++ ['"'])

/-- One output line: quoted fields joined with commas. -/
def linhaCSV (campos : List Chars) : Chars := joinSep ',' (campos.map quoteField)

/-- The export header row. -/
def cabecalhoCSV : List Chars :=
  ["Data".data, "Entrada".data, "Saída".data, "Horas Trabalhadas".data,
   "Diferença da Jornada".data, "Status".data, "Escala".data]

/-- The time cell of a data row: `registro.entrada ? formatarHora(...) : ""`
(an absent timestamp is falsy and short-circuits to the empty string). -/
def horaField (t : TimeInput) : Chars :=
  match t with
  | .vazio => []
  | x => formatarHora x

/-- The per-record data row of the export. -/
def linhaRegistro (escalaInfo : Escala) (registro : Registro) : List Chars :=
  let horasTrabalhadas := calcularHorasTrabalhadas registro.entrada registro.saida
  let diferenca := if 0 < horasTrabalhadas then horasTrabalhadas - escalaInfo.horasPorDia else 0
  let status : Chars :=
    if horasTrabalhadas = 0 then "Sem Registro".data
    else if 0 < diferenca then "Hora Extra".data
    else if diferenca < 0 then "Débito".data
    else "Normal".data
  [formatarData registro.data,
   horaField registro.entrada,
   horaField registro.saida,
   if 0 < horasTrabalhadas then formatarMinutos horasTrabalhadas else "0:00h".data,
   if 0 < horasTrabalhadas then formatarMinutos diferenca else "0:00h".data,
   status,
   escalaInfo.nome]

/-- The period-summary row of the export. -/
def linhaResumo (escalaInfo : Escala) (resumo : Resumo) : List Chars :=
  ["--- RESUMO DO PERÍODO ---".data, [], [],
   formatarMinutos resumo.horasTrabalhadasTotal,
   formatarMinutos resumo.saldoFinal,
   natStr resumo.diasTrabalhados ++ '/' :: (natStr resumo.diasUteis ++ " dias".data),
   escalaInfo.nome]

/-- The schedule-configuration row of the export (`horasPorDia/60` is exact,
every registered schedule's daily target being a whole number of hours). -/
def linhaConfigEscala (escalaInfo : Escala) : List Chars :=
  ["--- CONFIGURAÇÃO DA ESCALA ---".data, escalaInfo.nome, escalaInfo.descricao,
   natStr (escalaInfo.horasPorDia.toNat / 60) ++ "h/dia".data,
   natStr escalaInfo.horasSemana ++ "h/semana".data,
   [], []]

/-- All lines of the exported CSV, in order: header, one row per record, a
blank row, the summary row, a blank row, the configuration row. -/
def exportLines (registros : List Registro) (resumo : Resumo)
    (escalaId : Option Chars) : List Chars :=
  let escalaInfo := obterEscalaInfo escalaId
  let todasLinhas : List (List Chars) :=
    cabecalhoCSV ::
      (registros.map (linhaRegistro escalaInfo) ++
        [[[]], linhaResumo escalaInfo resumo, [[]], linhaConfigEscala escalaInfo])
  todasLinhas.map linhaCSV

/-- DataService.exportarDados: the full CSV file content. -/
def exportarDados (registros : List Registro) (resumo : Resumo)
    (escalaId : Option Chars) : Chars :=
  joinSep '\n' (exportLines registros resumo escalaId)

/-! ### CSV import (DataService.importarDados) -/

/-- Clean one CSV cell: `campo.replace(/"/g, "").trim()`. -/
def limpaCampo (campo : Chars) : Chars := trimChars (campo.filter (fun c => c ≠ '"'))

/-- The header test of the import: at least ONE of the expected column names
occurs as a substring of some header cell (`colunasEsperadas.some(...)`). -/
def temColunasBasicas (content : Chars) : Bool :=
  let cabecalho := (splitSepList ',' ((splitSepList '\n' content).headD [])).map limpaCampo
  ["Data".data, "Entrada".data, "Saída".data].any
    (fun col => cabecalho.any (fun header => containsSub col header))

/-- Modelled from the spec/claim wording, for comparison with the code: the
header contains ALL of the `Data`, `Entrada`, `Saída` substrings. -/
def cabecalhoTemTodas (content : Chars) : Bool :=
  let cabecalho := (splitSepList ',' ((splitSepList '\n' content).headD [])).map limpaCampo
  ["Data".data, "Entrada".data, "Saída".data].all
    (fun col => cabecalho.any (fun header => containsSub col header))

/-- JS `str.padStart(2, "0")`. -/
def padStart2 (s : Chars) : Chars :=
  if s.length < 2 then List.replicate (2 - s.length) '0' ++ s else s

/-- Date-cell conversion of the import: a cell containing `/` is reassembled
from `DD/MM/YYYY` to `YYYY-MM-DD` (a missing year destructures to JS
`undefined` and is rendered as the text `undefined`; a missing month makes
`padStart` throw, modelled as `none`, skipping the row). -/
def converteData (c0 : Chars) : Option Chars :=
  if containsSub "/".data c0 then
    match splitSepList '/' c0 with
    | dia :: mes :: resto =>
      some ((resto.headD "undefined".data) ++ '-' :: (padStart2 mes ++ '-' :: padStart2 dia))
    | _ => none
  else some c0

/-- Time-cell processing of the import: an empty cell stays empty; a cell
whose `HH`/`MM` parts both `parseInt` is combined with the (local-midnight)
date — `toISOString` on an unparseable date throws, modelled as `none`,
skipping the row; a cell that does not parse stays empty. -/
def parseHoraCampo (dataFormatada : Chars) (campo : Chars) : Option TimeInput :=
  if campo = [] then some .vazio
  else
    let partes := splitSepList ':' campo
    match parseIntJS (partes.getD 0 []), parseIntJS (partes.getD 1 []) with
    | some hora, some minuto =>
      match parseISODate dataFormatada with
      | some (y, m, d) => some (.valido (midnightMs y m d + hora * 3600000 + minuto * 60000))
      | none => none
    | _, _ => some .vazio

/-- Field processing of one data row (the body of the inner `try`); `none`
models a thrown exception, which skips the row. -/
def processaLinha (campos : List Chars) : Option (Chars × TimeInput × TimeInput) :=
  match converteData (campos.getD 0 []) with
  | none => none
  | some dataFormatada =>
    match parseHoraCampo dataFormatada (campos.getD 1 []) with
    | none => none
    | some entrada =>
      match parseHoraCampo dataFormatada (campos.getD 2 []) with
      | none => none
      | some saida => some (dataFormatada, entrada, saida)

/-- The line loop of the import (`for i = 1; ...`): `i` is the line index
(used in the generated id), `idGen` the id supply. -/
def importaLinhas (idGen : Nat → Chars) : Nat → List Chars → List Registro
  | _, [] => []
  | i, linhaBruta :: resto =>
    let linha := trimChars linhaBruta
    if linha.isEmpty || leadsList "---".data linha || containsSub "RESUMO".data linha ||
        containsSub "CONFIGURAÇÃO".data linha then
      importaLinhas idGen (i + 1) resto
    else
      let campos := (splitSepList ',' linha).map limpaCampo
      if 3 ≤ campos.length ∧ campos.getD 0 [] ≠ [] ∧
          leadsList "---".data (campos.getD 0 []) = false then
        match processaLinha campos with
        | some (dataFormatada, entrada, saida) =>
          { id := idGen i, data := dataFormatada, entrada := entrada, saida := saida } ::
            importaLinhas idGen (i + 1) resto
        | none => importaLinhas idGen (i + 1) resto
      else importaLinhas idGen (i + 1) resto

/-- DataService.importarDados on the file content: `none` when the import is
rejected (file too short, missing expected columns, or no valid rows) — in
those cases the user is alerted and the record set is left untouched. -/
def importarDados (idGen : Nat → Chars) (content : Chars) : Option (List Registro) :=
  let linhas := splitSepList '\n' content
  if linhas.length < 2 then none
  else if !temColunasBasicas content then none
  else
    let registrosImportados := importaLinhas idGen 1 (linhas.drop 1)
    if registrosImportados = [] then none else some registrosImportados

/-- The state transition of a confirmed import: a rejected import leaves the
record set unchanged, an accepted one replaces it wholesale. -/
def aplicaImportacao (registros : List Registro) (idGen : Nat → Chars)
    (content : Chars) : List Registro :=
  match importarDados idGen content with
  | some novos => novos
  | none => registros

/-! ### Well-formedness and round-trip equivalence -/

/-- An in-range civil date with a four-digit year (the shape
`Date.toISOString` produces and date inputs store). -/
abbrev dataValida (y m d : Nat) : Prop :=
  1000 ≤ y ∧ y ≤ 9999 ∧ 1 ≤ m ∧ m ≤ 12 ∧ 1 ≤ d ∧ d ≤ diasNoMes (m - 1) y

/-- A record as described by the data model: a canonical calendar date and
optional (never garbage) timestamps. -/
def registroBemFormado (r : Registro) : Prop :=
  (∃ y m d, dataValida y m d ∧ r.data = isoChars y m d) ∧
    r.entrada ≠ TimeInput.invalido ∧ r.saida ≠ TimeInput.invalido

/-- Equality of entry/exit times up to the one-minute precision of the CSV
`HH:MM` format: both absent, or both present showing the same clock time. -/
def tempoEquivalente : TimeInput → TimeInput → Prop
  | .vazio, .vazio => True
  | .valido a, .valido b => minuteOfDay b = minuteOfDay a
  | _, _ => False

/-- Record equivalence of the round-trip claim: same date, entry and exit
times equal within the one-minute precision of the CSV time format. -/
def registroEquivalente (original importado : Registro) : Prop :=
  importado.data = original.data ∧
    tempoEquivalente original.entrada importado.entrada ∧
    tempoEquivalente original.saida importado.saida

/-- What one timestamp becomes after the CSV round-trip: absent stays
absent; an instant is re-anchored at the record's date with its displayed
`HH:MM` clock time. -/
def reimportaTempo (data : Chars) : TimeInput → TimeInput
  | .valido t =>
    match parseISODate data with
    | some (y, m, d) =>
      .valido (midnightMs y m d + ((minuteOfDay t).toNat / 60 : Nat) * 3600000 +
        ((minuteOfDay t).toNat % 60 : Nat) * 60000)
    | none => .vazio
  | _ => .vazio

/-- What one record becomes after the CSV round-trip. -/
def reimportaRegistro (novoId : Chars) (r : Registro) : Registro :=
  { id := novoId, data := r.data, entrada := reimportaTempo r.data r.entrada,
    saida := reimportaTempo r.data r.saida }

/-- The record list produced by re-importing the export of `regs`, with line
indices starting at `i`. -/
def esperadoImport (idGen : Nat → Chars) : Nat → List Registro → List Registro
  | _, [] => []
  | i, r :: rs => reimportaRegistro (idGen i) r :: esperadoImport idGen (i + 1) rs

/-- A CSV cell free of newlines (keeps the exported line structure intact). -/
abbrev campoSemNL (f : Chars) : Prop := ∀ c ∈ f, c ≠ '\n'

/-- A CSV cell free of the marker letters of the skip tests (`RESUMO` holds
a `U`, `CONFIGURAÇÃO` a `Ç`). -/
abbrev campoSemMarcador (f : Chars) : Prop := ∀ c ∈ f, c ≠ 'U' ∧ c ≠ 'Ç'

/-- A CSV cell the import recovers verbatim: no separator, no quote, no
whitespace. -/
abbrev campoLimpo (f : Chars) : Prop := ∀ c ∈ f, c ≠ ',' ∧ c ≠ '"' ∧ isWS c = false

theorem natChars_fuel (n : Nat) : ∀ f g, n < f → n < g → natChars f n = natChars g n := by
  induction n using Nat.strong_induction_on with
  | _ n ih =>
    intro f g hf hg
    cases f with
    | zero => omega
    | succ f =>
      cases g with
      | zero => omega
      | succ g =>
        by_cases h10 : n < 10
        · simp [natChars, h10]
        · have hq10 : n / 10 * 10 ≤ n := Nat.div_mul_le_self n 10
          have hq1 : 1 ≤ n / 10 := (Nat.le_div_iff_mul_le (by omega)).2 (by omega)
          have hlt : n / 10 < n := Nat.div_lt_self (by omega) (by omega)
          simp only [natChars, if_neg h10]
          rw [ih (n / 10) hlt f g (by omega) (by omega)]

theorem natChars_succ (f n : Nat) :
    natChars (f + 1) n = if n < 10 then [digitChar n] else natChars f (n / 10) ++ [digitChar (n % 10)] :=
  rfl

theorem natStr_eq_natChars (n : Nat) {f : Nat} (hf : n < f) : natStr n = natChars f n :=
  natChars_fuel n (n + 1) f (Nat.lt_succ_self n) hf

theorem natStr_unfold (n : Nat) :
    natStr n = if n < 10 then [digitChar n] else natStr (n / 10) ++ [digitChar (n % 10)] := by
  have base : natStr n = if n < 10 then [digitChar n] else natChars n (n / 10) ++ [digitChar (n % 10)] :=
    natChars_succ n n
  rw [base]
  by_cases h10 : n < 10
  · simp [h10]
  · have hlt : n / 10 < n := Nat.div_lt_self (by omega) (by omega)
    rw [if_neg h10, if_neg h10, natStr_eq_natChars (n / 10) hlt]

theorem digitChar_isDigit {d : Nat} (h : d < 10) : isDigitChar (digitChar d) = true := by
  interval_cases d <;> decide

theorem natStr_digits (n : Nat) : ∀ c ∈ natStr n, isDigitChar c = true := by
  induction n using Nat.strong_induction_on with
  | _ n ih =>
    intro c hc
    rw [natStr_unfold] at hc
    by_cases h10 : n < 10
    · simp only [if_pos h10, List.mem_singleton] at hc
      exact hc ▸ digitChar_isDigit h10
    · simp only [if_neg h10, List.mem_append, List.mem_singleton] at hc
      rcases hc with hc | hc
      · exact ih (n / 10) (Nat.div_lt_self (by omega) (by omega)) c hc
      · exact hc ▸ digitChar_isDigit (Nat.mod_lt n (by omega))

theorem pad2_digits (n : Nat) : ∀ c ∈ pad2 n, isDigitChar c = true := by
  intro c hc
  unfold pad2 at hc
  by_cases h10 : n < 10
  · simp only [if_pos h10, List.mem_cons] at hc
    rcases hc with hc | hc
    · subst hc; decide
    · exact natStr_digits n c hc
  · simp only [if_neg h10] at hc
    exact natStr_digits n c hc

theorem natStr_ne_nil (n : Nat) : natStr n ≠ [] := by
  rw [natStr_unfold]
  by_cases h10 : n < 10 <;> simp [h10]

theorem digitChar_toNat : ∀ d : Nat, d < 10 → (digitChar d).toNat = 48 + d := by decide

theorem digit_not_banned {c : Char} (h : isDigitChar c = true) :
    isWS c = false ∧ c ≠ ',' ∧ c ≠ '"' ∧ c ≠ '\n' ∧ c ≠ '-' ∧ c ≠ '/' ∧
      c ≠ ':' ∧ c ≠ 'U' ∧ c ≠ 'Ç' := by
  have hn : 48 ≤ c.toNat ∧ c.toNat ≤ 57 := by simpa [isDigitChar] using h
  constructor
  · cases hws : isWS c
    · rfl
    · exfalso
      simp only [isWS, Bool.or_eq_true, decide_eq_true_eq] at hws
      rcases hws with ((h' | h') | h') | h' <;> (subst h'; revert hn; decide)
  refine ⟨?_, ?_, ?_, ?_, ?_, ?_, ?_, ?_⟩ <;> (intro h'; subst h'; revert hn; decide)

theorem foldl_digitStep_natStr (n : Nat) :
    ∀ a : Nat, List.foldl digitStep a (natStr n) = a * 10 ^ (natStr n).length + n := by
  induction n using Nat.strong_induction_on with
  | _ n ih =>
    intro a
    by_cases h10 : n < 10
    · rw [natStr_unfold n, if_pos h10]
      have hd : (digitChar n).toNat = 48 + n := digitChar_toNat n h10
      simp only [List.foldl_cons, List.foldl_nil, digitStep, hd, List.length_singleton, pow_one]
      omega
    · have hlt : n / 10 < n := Nat.div_lt_self (by omega) (by omega)
      rw [natStr_unfold n, if_neg h10, List.foldl_append]
      simp only [List.foldl_cons, List.foldl_nil]
      rw [ih (n / 10) hlt a]
      have hd : (digitChar (n % 10)).toNat = 48 + n % 10 := digitChar_toNat _ (Nat.mod_lt _ (by omega))
      simp only [digitStep, hd, List.length_append, List.length_singleton]
      rw [pow_succ, ← mul_assoc]
      generalize a * 10 ^ (natStr (n / 10)).length = K
      omega

theorem digitsVal_natStr (n : Nat) : digitsVal (natStr n) = n := by
  have h := foldl_digitStep_natStr n 0
  simpa [digitsVal] using h

theorem digitsVal_pad2 (n : Nat) : digitsVal (pad2 n) = n := by
  unfold pad2
  by_cases h10 : n < 10
  · have : digitStep 0 '0' = 0 := by decide
    simp only [if_pos h10, digitsVal, List.foldl_cons, this]
    exact digitsVal_natStr n
  · simp only [if_neg h10]
    exact digitsVal_natStr n

theorem takeWhile_all {α : Type} {p : α → Bool} :
    ∀ {l : List α}, (∀ c ∈ l, p c = true) → l.takeWhile p = l := by
  intro l
  induction l with
  | nil => intro _; rfl
  | cons a t ih =>
    intro h
    rw [List.takeWhile_cons, if_pos (h a (List.mem_cons_self a t))]
    rw [ih (fun c hc => h c (List.mem_cons_of_mem a hc))]

theorem parseIntJS_digits {s : Chars} (hne : s ≠ [])
    (hd : ∀ c ∈ s, isDigitChar c = true) : parseIntJS s = some ((digitsVal s : Int)) := by
  cases s with
  | nil => exact absurd rfl hne
  | cons c rest =>
    have hc := hd c (List.mem_cons_self c rest)
    have hprops := digit_not_banned hc
    have hdrop : (c :: rest).dropWhile isWS = c :: rest := by
      rw [List.dropWhile_cons, if_neg (by simp [hprops.1])]
    have htake : (c :: rest).takeWhile isDigitChar = c :: rest := takeWhile_all hd
    unfold parseIntJS
    rw [hdrop]
    simp only [if_neg hprops.2.2.2.2.1, htake]
    have hplus : c ≠ '+' := by
      intro h'
      subst h'
      simp [isDigitChar] at hc
    simp [hplus]

theorem parseDigitsStrict_natStr (n : Nat) : parseDigitsStrict (natStr n) = some n := by
  unfold parseDigitsStrict
  rw [if_pos ⟨natStr_ne_nil n, List.all_eq_true.2 (fun c hc => natStr_digits n c hc)⟩]
  rw [digitsVal_natStr]

theorem pad2_ne_nil (n : Nat) : pad2 n ≠ [] := by
  unfold pad2
  by_cases h10 : n < 10
  · simp [h10]
  · simp only [if_neg h10]; exact natStr_ne_nil n

theorem parseDigitsStrict_pad2 (n : Nat) : parseDigitsStrict (pad2 n) = some n := by
  unfold parseDigitsStrict
  rw [if_pos ⟨pad2_ne_nil n, List.all_eq_true.2 (fun c hc => pad2_digits n c hc)⟩]
  rw [digitsVal_pad2]

theorem parseIntJS_pad2 (n : Nat) : parseIntJS (pad2 n) = some (n : Int) := by
  rw [parseIntJS_digits (pad2_ne_nil n) (pad2_digits n), digitsVal_pad2]

theorem splitSepList_ne_nil {sep : Char} {s : Chars} : splitSepList sep s ≠ [] := by
  induction s with
  | nil => simp [splitSepList]
  | cons c rest ih =>
    simp only [splitSepList]
    cases h : splitSepList sep rest with
    | nil => simp
    | cons a t => by_cases hc : c = sep <;> simp [hc]

theorem splitSepList_sep_free {sep : Char} :
    ∀ {l : Chars}, sep ∉ l → splitSepList sep l = [l] := by
  intro l
  induction l with
  | nil => intro _; rfl
  | cons c rest ih =>
    intro h
    have hc : c ≠ sep := fun h' => h (h' ▸ List.mem_cons_self c rest)
    have hrest : sep ∉ rest := fun h' => h (List.mem_cons_of_mem c h')
    simp only [splitSepList, ih hrest, if_neg hc]

theorem splitSepList_append_sep {sep : Char} {l r : Chars} (h : sep ∉ l) :
    splitSepList sep (l ++ sep :: r) = l :: splitSepList sep r := by
  induction l with
  | nil =>
    simp only [List.nil_append, splitSepList]
    cases h' : splitSepList sep r with
    | nil => exact absurd h' splitSepList_ne_nil
    | cons a t => simp
  | cons c rest ih =>
    have hc : c ≠ sep := fun h' => h (h' ▸ List.mem_cons_self c rest)
    have hrest : sep ∉ rest := fun h' => h (List.mem_cons_of_mem c h')
    have hx : splitSepList sep ((c :: rest) ++ sep :: r) =
        match splitSepList sep (rest ++ sep :: r) with
        | [] => [[]]
        | h :: t => if c = sep then [] :: h :: t else (c :: h) :: t := rfl
    rw [hx, ih hrest]
    simp [hc]

theorem splitSepList_joinSep {sep : Char} :
    ∀ {ls : List Chars}, ls ≠ [] → (∀ l ∈ ls, sep ∉ l) →
      splitSepList sep (joinSep sep ls) = ls := by
  intro ls
  induction ls with
  | nil => intro h _; exact absurd rfl h
  | cons l ls ih =>
    intro _ hmem
    cases ls with
    | nil => exact splitSepList_sep_free (hmem l (List.mem_cons_self l []))
    | cons m ms =>
      have hstep : joinSep sep (l :: m :: ms) = l ++ sep :: joinSep sep (m :: ms) := rfl
      rw [hstep, splitSepList_append_sep (hmem l (List.mem_cons_self l _))]
      rw [ih (by simp) (fun x hx => hmem x (List.mem_cons_of_mem l hx))]

theorem mem_joinSep {sep : Char} {x : Char} :
    ∀ {ls : List Chars}, x ∈ joinSep sep ls → x = sep ∨ ∃ l ∈ ls, x ∈ l := by
  intro ls
  induction ls with
  | nil => simp [joinSep]
  | cons l ls ih =>
    cases ls with
    | nil =>
      intro h
      exact Or.inr ⟨l, List.mem_cons_self l [], h⟩
    | cons m ms =>
      intro h
      have hstep : joinSep sep (l :: m :: ms) = l ++ sep :: joinSep sep (m :: ms) := rfl
      rw [hstep, List.mem_append, List.mem_cons] at h
      rcases h with h | h | h
      · exact Or.inr ⟨l, List.mem_cons_self l _, h⟩
      · exact Or.inl h
      · rcases ih h with h' | ⟨l', hl', hx⟩
        · exact Or.inl h'
        · exact Or.inr ⟨l', List.mem_cons_of_mem l hl', hx⟩

theorem dropWhile_eq_self_head {p : Char → Bool} {s : Chars}
    (h : ∀ c, s.head? = some c → p c = false) : s.dropWhile p = s := by
  cases s with
  | nil => rfl
  | cons a t => rw [List.dropWhile_cons, if_neg (by simp [h a rfl])]

theorem trimChars_eq_self {s : Chars}
    (h1 : ∀ c, s.head? = some c → isWS c = false)
    (h2 : ∀ c, s.getLast? = some c → isWS c = false) : trimChars s = s := by
  unfold trimChars
  rw [dropWhile_eq_self_head h1]
  rw [dropWhile_eq_self_head (by simpa using h2)]
  exact s.reverse_reverse

theorem leadsList_append (l r : Chars) : leadsList l (l ++ r) = true := by
  induction l with
  | nil => rfl
  | cons a as ih => simp [leadsList, ih]

theorem leadsList_extend {n : Chars} {r : Chars} :
    ∀ {h : Chars}, leadsList n h = true → leadsList n (h ++ r) = true := by
  induction n with
  | nil => intro h _; rfl
  | cons a as ih =>
    intro h hl
    cases h with
    | nil => simp [leadsList] at hl
    | cons b bs =>
      simp only [leadsList, Bool.and_eq_true, decide_eq_true_eq] at hl ⊢
      exact ⟨hl.1, ih hl.2⟩

theorem containsSub_of_leads {n h : Chars} (hl : leadsList n h = true) :
    containsSub n h = true := by
  cases h with
  | nil => exact hl
  | cons c rest => simp [containsSub, hl]

theorem containsSub_append_left {n : Chars} :
    ∀ {a h : Chars}, containsSub n h = true → containsSub n (a ++ h) = true := by
  intro a
  induction a with
  | nil => intro h hc; exact hc
  | cons c a ih =>
    intro h hc
    simp only [List.cons_append, containsSub, Bool.or_eq_true]
    exact Or.inr (ih hc)

theorem containsSub_nil_left : ∀ {h : Chars}, containsSub [] h = true := by
  intro h
  cases h with
  | nil => rfl
  | cons c rest => simp [containsSub, leadsList]

theorem containsSub_extend_right {n : Chars} {r : Chars} :
    ∀ {h : Chars}, containsSub n h = true → containsSub n (h ++ r) = true := by
  intro h
  induction h with
  | nil =>
    intro hc
    cases n with
    | nil => exact containsSub_nil_left
    | cons a as => simp [containsSub, leadsList] at hc
  | cons c rest ih =>
    intro hc
    simp only [containsSub, Bool.or_eq_true] at hc
    simp only [List.cons_append, containsSub, Bool.or_eq_true]
    rcases hc with hc | hc
    · exact Or.inl (leadsList_extend hc)
    · exact Or.inr (ih hc)

theorem containsSub_infix (n pre post : Chars) :
    containsSub n (pre ++ (n ++ post)) = true :=
  containsSub_append_left (containsSub_of_leads (leadsList_append n post))

theorem mem_of_leads {n h : Chars} {c : Char} :
    leadsList n h = true → c ∈ n → c ∈ h := by
  induction n generalizing h with
  | nil => intro _ hc; simp at hc
  | cons a as ih =>
    intro hl hc
    cases h with
    | nil => simp [leadsList] at hl
    | cons b bs =>
      simp only [leadsList, Bool.and_eq_true, decide_eq_true_eq] at hl
      rcases List.mem_cons.1 hc with hc | hc
      · subst hc; rw [hl.1]; exact List.mem_cons_self b bs
      · exact List.mem_cons_of_mem b (ih hl.2 hc)

theorem mem_of_containsSub {n : Chars} {c : Char} :
    ∀ {h : Chars}, containsSub n h = true → c ∈ n → c ∈ h := by
  intro h
  induction h with
  | nil =>
    intro hc hm
    cases n with
    | nil => simp at hm
    | cons a as => simp [containsSub, leadsList] at hc
  | cons b bs ih =>
    intro hc hm
    simp only [containsSub, Bool.or_eq_true] at hc
    rcases hc with hc | hc
    · exact mem_of_leads hc hm
    · exact List.mem_cons_of_mem b (ih hc hm)

theorem containsSub_eq_false {n h : Chars} {c : Char} (hcn : c ∈ n) (hch : c ∉ h) :
    containsSub n h = false := by
  cases hc : containsSub n h
  · rfl
  · exact absurd (mem_of_containsSub hc hcn) hch

theorem parseISODate_isoChars {y m d : Nat}
    (hm1 : 1 ≤ m) (hm2 : m ≤ 12) (hd1 : 1 ≤ d) (hd2 : d ≤ diasNoMes (m - 1) y) :
    parseISODate (isoChars y m d) = some (y, m, d) := by
  have hdash : ∀ s : Chars, (∀ c ∈ s, isDigitChar c = true) → '-' ∉ s := by
    intro s hs hmem
    exact (digit_not_banned (hs '-' hmem)).2.2.2.2.1 rfl
  have hsplit : splitSepList '-' (isoChars y m d) = [natStr y, pad2 m, pad2 d] := by
    unfold isoChars
    rw [splitSepList_append_sep (hdash _ (natStr_digits y))]
    rw [splitSepList_append_sep (hdash _ (pad2_digits m))]
    rw [splitSepList_sep_free (hdash _ (pad2_digits d))]
  unfold parseISODate
  rw [hsplit]
  simp only [parseDigitsStrict_natStr, parseDigitsStrict_pad2]
  rw [if_pos ⟨hm1, hm2, hd1, hd2⟩]

/-! ## Claim C1 — worked minutes -/

/-- C1: for parseable timestamps with entry < exit, calcularHorasTrabalhadas
returns `floor((exit - entry) / 60000)`; whenever either timestamp is absent
or unparseable, or exit ≤ entry, it returns 0.  The embedding is a total
function, so no input can make it throw. -/
theorem c1_calcularHorasTrabalhadas (entrada saida : TimeInput) :
    (∀ e s : Int, entrada = TimeInput.valido e → saida = TimeInput.valido s → e < s →
      calcularHorasTrabalhadas entrada saida = (s - e) / 60000) ∧
    (∀ e s : Int, entrada = TimeInput.valido e → saida = TimeInput.valido s → s ≤ e →
      calcularHorasTrabalhadas entrada saida = 0) ∧
    ((entrada = TimeInput.vazio ∨ entrada = TimeInput.invalido ∨
        saida = TimeInput.vazio ∨ saida = TimeInput.invalido) →
      calcularHorasTrabalhadas entrada saida = 0) := by
  refine ⟨?_, ?_, ?_⟩
  · rintro e s rfl rfl h
    simp only [calcularHorasTrabalhadas]
    rw [if_neg (by omega)]
  · rintro e s rfl rfl h
    simp only [calcularHorasTrabalhadas]
    by_cases h0 : s - e < 0
    · rw [if_pos h0]
    · rw [if_neg h0]
      have hz : s - e = 0 := by omega
      rw [hz]
      rfl
  · intro h
    rcases h with rfl | rfl | rfl | rfl
    · cases saida <;> rfl
    · cases saida <;> rfl
    · cases entrada <;> rfl
    · cases entrada <;> rfl

/-- Witness for C1 at a concrete input: 125 seconds of work floor to 2
minutes. -/
theorem c1_witness :
    calcularHorasTrabalhadas (TimeInput.valido 0) (TimeInput.valido 125000) =
        (125000 - 0) / 60000 ∧
      ((125000 : Int) - 0) / 60000 = 2 :=
  ⟨(c1_calcularHorasTrabalhadas (TimeInput.valido 0) (TimeInput.valido 125000)).1 0 125000
      rfl rfl (by decide),
    by decide⟩

/-! ## Claim C3 — business-day counting -/

theorem foldl_if_count {α : Type} (p : α → Bool) :
    ∀ (l : List α) (a : Nat),
      l.foldl (fun acc i => if p i then acc + 1 else acc) a = a + (l.filter p).length := by
  intro l
  induction l with
  | nil => intro a; simp
  | cons c t ih =>
    intro a
    rw [List.foldl_cons, ih]
    by_cases hc : p c
    · simp [List.filter_cons, hc]
      omega
    · simp [List.filter_cons, hc]

theorem filter_map_length {α β : Type} (f : α → β) (p : β → Bool) (l : List α) :
    ((l.map f).filter p).length = (l.filter (fun x => p (f x))).length := by
  induction l with
  | nil => rfl
  | cons c t ih =>
    by_cases hc : p (f c) <;> simp [List.filter_cons, hc, ih]

/-- C3 (amended): obterDiasUteis counts exactly the calendar days of the
month whose weekday index belongs to the resolved schedule's working-weekday
list; for the Monday-through-Saturday schedule, March 2024 yields 26
business days (not 27: the claim's own list of the five excluded Sundays
gives 31 − 5 = 26, matching the code). -/
theorem c3_obterDiasUteis (mes ano : Nat) (escalaId : Option Chars) :
    obterDiasUteis mes ano escalaId =
      (((List.range (diasNoMes mes ano)).map (fun i => i + 1)).filter
        (fun dia =>
          (obterEscalaInfo escalaId).diasUteis.contains (diaSemana ano (mes + 1) dia))).length ∧
    obterDiasUteis 2 2024 (some "escala_6x1_7h".data) = 26 := by
  constructor
  · unfold obterDiasUteis
    rw [foldl_if_count]
    rw [filter_map_length]
    simp
  · decide

/-- C3 counterexample: the claim's concrete figure is wrong — for the
Monday-through-Saturday schedule, March 2024 has 26 business days, not 27. -/
theorem c3_counterexample :
    obterDiasUteis 2 2024 (some "escala_6x1_7h".data) = 26 ∧
      obterDiasUteis 2 2024 (some "escala_6x1_7h".data) ≠ 27 := by decide

/-! ## Claim C4 — schedule resolution fallback -/

/-- Every resolution lands in the registry (the registry is nonempty, so the
hard-coded fallback object is unreachable). -/
theorem obterEscalaInfo_mem (escalaId : Option Chars) :
    obterEscalaInfo escalaId ∈ ESCALAS_TRABALHO := by
  unfold obterEscalaInfo
  rcases hfind : ESCALAS_TRABALHO.find? (fun e => e.id ==
      (match escalaId with
        | some s => if s = [] then ESCALA_PADRAO else s
        | none => ESCALA_PADRAO)) with _ | e
  · simp only [hfind]
    decide
  · simp only [hfind]
    exact List.mem_of_find?_eq_some hfind

/-- C4 counterexample: an absent id resolves to the designated default
profile (escala_6x1_7h = ESCALA_PADRAO), an unknown id to the FIRST registry
entry (escala_5x2_8h) — two different profiles, so "absent/unknown returns
the designated default profile, which is the first entry" is false. -/
theorem c4_counterexample :
    (obterEscalaInfo none).id = ESCALA_PADRAO ∧
      (ESCALAS_TRABALHO.headD escalaFallback).id ≠ ESCALA_PADRAO ∧
      (obterEscalaInfo (some "escala_inexistente".data)).id ≠ (obterEscalaInfo none).id := by
  decide

/-- C4 (amended): an absent/empty schedule id resolves to the ESCALA_PADRAO
profile (escala_6x1_7h, the second registry entry); an unknown non-empty id
falls back to the first registry entry; in every case the lookup succeeds,
returning a member of the registry. -/
theorem c4_obterEscalaInfo (escalaId : Option Chars) :
    ((escalaId = none ∨ escalaId = some []) →
      (obterEscalaInfo escalaId).id = ESCALA_PADRAO) ∧
    (∀ s : Chars, escalaId = some s → s ≠ [] → (∀ e ∈ ESCALAS_TRABALHO, e.id ≠ s) →
      obterEscalaInfo escalaId = ESCALAS_TRABALHO.headD escalaFallback) ∧
    obterEscalaInfo escalaId ∈ ESCALAS_TRABALHO := by
  refine ⟨?_, ?_, ?_⟩
  · rintro (rfl | rfl) <;> decide
  · rintro s rfl hne hunk
    have hfind : ESCALAS_TRABALHO.find? (fun e => e.id == s) = none := by
      rw [List.find?_eq_none]
      intro e he
      simpa using hunk e he
    show (match ESCALAS_TRABALHO.find?
        (fun e => e.id == (if s = [] then ESCALA_PADRAO else s)) with
      | some escala => escala
      | none => ESCALAS_TRABALHO.headD escalaFallback) = ESCALAS_TRABALHO.headD escalaFallback
    rw [if_neg hne, hfind]
  · exact obterEscalaInfo_mem escalaId

/-- Witness for C4 at concrete inputs: an absent id yields the default 6x1
profile; an unknown id yields the registry's first entry. -/
theorem c4_witness :
    (obterEscalaInfo none).id = ESCALA_PADRAO ∧
      obterEscalaInfo (some "escala_qualquer".data) = ESCALAS_TRABALHO.headD escalaFallback :=
  ⟨(c4_obterEscalaInfo none).1 (Or.inl rfl),
    (c4_obterEscalaInfo (some "escala_qualquer".data)).2.1 "escala_qualquer".data rfl
      (by decide) (by decide)⟩

/-! ## Claim C5 — CSV import header validation -/

/-- C5 (amended): the import requires the header row to contain at least ONE
of the substrings `Data`, `Entrada`, `Saída` (`colunasEsperadas.some`, not
all three); when the header contains none of them, the import is rejected:
zero records are imported and the existing record set is left unchanged. -/
theorem c5_importarDados (idGen : Nat → Chars) (content : Chars)
    (registros : List Registro) (h : temColunasBasicas content = false) :
    importarDados idGen content = none ∧
      aplicaImportacao registros idGen content = registros := by
  have himp : importarDados idGen content = none := by
    unfold importarDados
    dsimp only
    by_cases h1 : (splitSepList '\n' content).length < 2
    · rw [if_pos h1]
    · rw [if_neg h1, if_pos (show (!temColunasBasicas content) = true by rw [h]; rfl)]
  exact ⟨himp, by unfold aplicaImportacao; rw [himp]⟩

/-- Witness for C5 at a concrete input: a file whose header has none of the
expected column substrings is rejected and the state is untouched. -/
theorem c5_witness :
    importarDados (fun _ => []) "sem cabecalho\nlinha qualquer".data = none ∧
      aplicaImportacao [] (fun _ => []) "sem cabecalho\nlinha qualquer".data = [] :=
  c5_importarDados (fun _ => []) "sem cabecalho\nlinha qualquer".data [] (by decide)

/-- C5 counterexample: a CSV whose header contains `Data` but neither
`Entrada` nor `Saída` is accepted — one record is imported — so the claim
that the header must contain all three substrings is false. -/
theorem c5_counterexample :
    cabecalhoTemTodas "\"Data\"\n\"2024-03-05\",\"08:00\",\"12:00\"".data = false ∧
      (importarDados (fun _ => []) "\"Data\"\n\"2024-03-05\",\"08:00\",\"12:00\"".data).isSome =
        true := by
  constructor
  · decide
  · decide

/-! ## Claim C2 — monthly summary invariants -/

theorem resumoStep_mono (h : Int) (acc : Int × Int × Int) (r : Registro) :
    acc.2.1 ≤ (resumoStep h acc r).2.1 ∧ acc.2.2 ≤ (resumoStep h acc r).2.2 := by
  unfold resumoStep
  have habs : 0 ≤ |calcularHorasTrabalhadas r.entrada r.saida - h| := abs_nonneg _
  dsimp only
  split_ifs with h1 h2 h3
  · exact ⟨by simp; omega, by simp⟩
  · exact ⟨by simp, by simp⟩
  · exact ⟨by simp, by simp⟩
  · exact ⟨by simp, by simp⟩

theorem resumo_buckets_mono (h : Int) (l : List Registro) :
    ∀ acc : Int × Int × Int,
      acc.2.1 ≤ (l.foldl (resumoStep h) acc).2.1 ∧
        acc.2.2 ≤ (l.foldl (resumoStep h) acc).2.2 := by
  induction l with
  | nil => intro acc; exact ⟨le_refl _, le_refl _⟩
  | cons r t ih =>
    intro acc
    rw [List.foldl_cons]
    constructor
    · exact le_trans (resumoStep_mono h acc r).1 (ih (resumoStep h acc r)).1
    · exact le_trans (resumoStep_mono h acc r).2 (ih (resumoStep h acc r)).2

theorem resumoStep_zero {h : Int} {acc : Int × Int × Int} {r : Registro}
    (hz : calcularHorasTrabalhadas r.entrada r.saida = 0) : resumoStep h acc r = acc := by
  unfold resumoStep
  rw [hz]
  simp

/-- C2: for every list of month records and every schedule, the monthly
summary satisfies saldoFinal = totalExtras − totalDebito, both buckets are
non-negative, and a record whose worked minutes are 0 contributes to neither
bucket (removing it from anywhere in the list leaves both buckets equal). -/
theorem c2_resumoMes (registrosDoMes : List Registro) (mesAtual anoAtual : Nat)
    (escalaId : Option Chars) :
    (resumoMes registrosDoMes mesAtual anoAtual escalaId).saldoFinal =
        (resumoMes registrosDoMes mesAtual anoAtual escalaId).totalExtras -
          (resumoMes registrosDoMes mesAtual anoAtual escalaId).totalDebito ∧
    0 ≤ (resumoMes registrosDoMes mesAtual anoAtual escalaId).totalExtras ∧
    0 ≤ (resumoMes registrosDoMes mesAtual anoAtual escalaId).totalDebito ∧
    (∀ (antes depois : List Registro) (r : Registro),
      registrosDoMes = antes ++ r :: depois →
      calcularHorasTrabalhadas r.entrada r.saida = 0 →
      (resumoMes registrosDoMes mesAtual anoAtual escalaId).totalExtras =
          (resumoMes (antes ++ depois) mesAtual anoAtual escalaId).totalExtras ∧
        (resumoMes registrosDoMes mesAtual anoAtual escalaId).totalDebito =
          (resumoMes (antes ++ depois) mesAtual anoAtual escalaId).totalDebito) := by
  refine ⟨rfl, ?_, ?_, ?_⟩
  · exact (resumo_buckets_mono _ registrosDoMes (0, 0, 0)).1
  · exact (resumo_buckets_mono _ registrosDoMes (0, 0, 0)).2
  · intro antes depois r hsplit hz
    have hfold : ∀ acc : Int × Int × Int,
        registrosDoMes.foldl (resumoStep (obterEscalaInfo escalaId).horasPorDia) acc =
          (antes ++ depois).foldl (resumoStep (obterEscalaInfo escalaId).horasPorDia) acc := by
      intro acc
      rw [hsplit, List.foldl_append, List.foldl_append, List.foldl_cons, resumoStep_zero hz]
    constructor <;> simp only [resumoMes, hfold]

/-- Witness for C2's conditional part at a concrete input: a record with no
worked time contributes to neither bucket. -/
theorem c2_witness :
    (resumoMes [⟨[], [], TimeInput.vazio, TimeInput.vazio⟩] 2 2024
          (some "escala_6x1_7h".data)).totalExtras =
        (resumoMes [] 2 2024 (some "escala_6x1_7h".data)).totalExtras ∧
      (resumoMes [⟨[], [], TimeInput.vazio, TimeInput.vazio⟩] 2 2024
          (some "escala_6x1_7h".data)).totalDebito =
        (resumoMes [] 2 2024 (some "escala_6x1_7h".data)).totalDebito :=
  (c2_resumoMes [⟨[], [], TimeInput.vazio, TimeInput.vazio⟩] 2 2024
      (some "escala_6x1_7h".data)).2.2.2 [] [] ⟨[], [], TimeInput.vazio, TimeInput.vazio⟩
    rfl (by decide)

/-! ## Claim C9 — business-day quota gate on adding a record -/

/-- C9: adding a day is gated by the business-day quota — when the number of
recorded days in the viewed month reaches the month's business-day count the
addition is refused and the record set is unchanged; otherwise exactly one
record with empty entry and exit fields is appended. -/
theorem c9_adicionarRegistro (registros : List Registro) (mesAtual anoAtual : Nat)
    (escalaId : Option Chars) (hoje : Nat × Nat × Nat) (novoId : Chars) :
    ((resumoMes (registrosMes registros mesAtual anoAtual) mesAtual anoAtual escalaId).diasUteis ≤
        (resumoMes (registrosMes registros mesAtual anoAtual) mesAtual anoAtual
            escalaId).diasTrabalhados →
      adicionarRegistro registros mesAtual anoAtual escalaId hoje novoId = registros) ∧
    ((resumoMes (registrosMes registros mesAtual anoAtual) mesAtual anoAtual
          escalaId).diasTrabalhados <
        (resumoMes (registrosMes registros mesAtual anoAtual) mesAtual anoAtual
            escalaId).diasUteis →
      ∃ novo : Registro,
        adicionarRegistro registros mesAtual anoAtual escalaId hoje novoId =
            registros ++ [novo] ∧
          novo.entrada = TimeInput.vazio ∧ novo.saida = TimeInput.vazio ∧
          (adicionarRegistro registros mesAtual anoAtual escalaId hoje novoId).length =
            registros.length + 1) := by
  constructor
  · intro hle
    unfold adicionarRegistro
    rw [if_pos hle]
  · intro hlt
    unfold adicionarRegistro
    rw [if_neg (by omega)]
    refine ⟨_, rfl, rfl, rfl, ?_⟩
    simp

/-- Witness for C9 at a concrete input: with no records yet, a day can be
added to March 2024 and carries empty entry/exit. -/
theorem c9_witness :
    ∃ novo : Registro,
      adicionarRegistro [] 2 2024 (some "escala_6x1_7h".data) (2026, 10, 11) [] =
          [] ++ [novo] ∧
        novo.entrada = TimeInput.vazio ∧ novo.saida = TimeInput.vazio ∧
        (adicionarRegistro [] 2 2024 (some "escala_6x1_7h".data) (2026, 10, 11) []).length =
          List.length ([] : List Registro) + 1 :=
  (c9_adicionarRegistro [] 2 2024 (some "escala_6x1_7h".data) (2026, 10, 11) []).2 (by decide)

/-! ## Claim C6 — chart dataset shape -/

/-- C6: for every record list, month, year and schedule, the chart dataset
has exactly `diasNoMes` points, in ascending day order 1..diasNoMes, and any
day with no record whose date matches it exactly gets zero worked minutes
and `temRegistro = false`. -/
theorem c6_gerarDadosGraficos (registros : List Registro) (mes ano : Nat)
    (escalaId : Option Chars) :
    (gerarDadosGraficos registros mes ano escalaId).length = diasNoMes mes ano ∧
    (∀ i (h : i < (gerarDadosGraficos registros mes ano escalaId).length),
      ((gerarDadosGraficos registros mes ano escalaId).get ⟨i, h⟩).dia = i + 1 ∧
      ((∀ r ∈ registros, r.data ≠ isoChars ano (mes + 1) (i + 1)) →
        ((gerarDadosGraficos registros mes ano escalaId).get ⟨i, h⟩).horasTrabalhadas = 0 ∧
          ((gerarDadosGraficos registros mes ano escalaId).get ⟨i, h⟩).temRegistro = false)) := by
  constructor
  · simp [gerarDadosGraficos]
  · intro i h
    have hget : (gerarDadosGraficos registros mes ano escalaId).get ⟨i, h⟩ =
        dadoDoDia registros mes ano escalaId (i + 1) := by
      unfold gerarDadosGraficos
      rw [List.get_eq_getElem]
      simp
    rw [hget]
    constructor
    · rfl
    · intro hnone
      have hfind :
          registros.find? (fun r => r.data == isoChars ano (mes + 1) (i + 1)) = none := by
        rw [List.find?_eq_none]
        intro r hr
        simpa using hnone r hr
      unfold dadoDoDia
      dsimp only
      rw [hfind]
      exact ⟨rfl, rfl⟩

/-- Witness for C6 at a concrete input: with no records, the first point of
January 2024 has day 1, zero worked minutes and no record. -/
theorem c6_witness :
    ((gerarDadosGraficos [] 0 2024 none).get ⟨0, by decide⟩).dia = 0 + 1 ∧
      ((gerarDadosGraficos [] 0 2024 none).get ⟨0, by decide⟩).horasTrabalhadas = 0 ∧
      ((gerarDadosGraficos [] 0 2024 none).get ⟨0, by decide⟩).temRegistro = false := by
  have h := (c6_gerarDadosGraficos [] 0 2024 none).2 0 (by decide)
  exact ⟨h.1, h.2 (by simp)⟩

/-! ## Claim C7 — statistics and the consistency score -/

theorem jornadasValidas_pos (registros : List Registro) :
    ∀ j ∈ jornadasValidas registros, 0 < j := by
  intro j hj
  unfold jornadasValidas at hj
  have h := List.of_mem_filter hj
  simpa using h

theorem mediaReal_pos {l : List Int} (hne : l ≠ []) (hpos : ∀ j ∈ l, 0 < j) :
    0 < mediaReal l := by
  unfold mediaReal
  apply div_pos
  · exact_mod_cast List.sum_pos l hpos hne
  · exact_mod_cast List.length_pos.2 hne

theorem round_bounds {x : ℝ} (h0 : 0 ≤ x) (h100 : x ≤ 100) :
    0 ≤ round x ∧ round x ≤ 100 := by
  rw [round_eq]
  constructor
  · exact Int.floor_nonneg.2 (by linarith)
  · have h1 : ⌊x + 1 / 2⌋ ≤ ⌊(100 : ℝ) + 1 / 2⌋ := Int.floor_mono (by linarith)
    have h2 : ⌊(100 : ℝ) + 1 / 2⌋ = 100 := by
      rw [Int.floor_eq_iff]
      constructor <;> norm_num
    omega

theorem consistenciaReal_bounds (l : List Int) :
    0 ≤ consistenciaReal l ∧ consistenciaReal l ≤ 100 := by
  unfold consistenciaReal
  split_ifs with h1 h2
  · refine ⟨le_max_left 0 _, max_le (by norm_num) ?_⟩
    exact min_le_left _ _
  · norm_num
  · norm_num

theorem consistenciaReal_eq_spec {l : List Int} (h2 : 1 < l.length)
    (hpos : ∀ j ∈ l, 0 < j) : consistenciaReal l = consistenciaSpec l := by
  have hne : l ≠ [] := by
    intro h
    rw [h] at h2
    simp at h2
  have hm : 0 < mediaReal l := mediaReal_pos hne hpos
  have hsd : 0 ≤ desvioPadraoReal l := Real.sqrt_nonneg _
  unfold consistenciaReal consistenciaSpec
  rw [if_pos h2, if_pos hm]
  have hq : 0 ≤ desvioPadraoReal l / mediaReal l * 100 := by positivity
  rw [min_eq_right (by linarith)]
  have horient : 100 - desvioPadraoReal l / mediaReal l * 100 =
      100 - 100 * desvioPadraoReal l / mediaReal l := by ring
  rw [horient]

/-- C7 (amended): computeStats operates only over records with positive
worked minutes: with zero qualifying records it returns the all-zero result;
with exactly one qualifying record, consistencia = 100; with two or more,
consistencia = round(max(0, 100 − 100·stddev/mean)) of the qualifying daily
durations (the code additionally caps at 100, which the formula already
respects, and rounds to an integer), so it always lies in 0..100. -/
theorem c7_calcularEstatisticas (registros : List Registro) (escalaId : Option Chars) :
    (jornadasValidas registros = [] →
      calcularEstatisticas registros escalaId = estatisticasVazias) ∧
    (∀ j : Int, jornadasValidas registros = [j] →
      (calcularEstatisticas registros escalaId).consistencia = 100) ∧
    (2 ≤ (jornadasValidas registros).length →
      (calcularEstatisticas registros escalaId).consistencia =
          round (consistenciaSpec (jornadasValidas registros)) ∧
        0 ≤ (calcularEstatisticas registros escalaId).consistencia ∧
        (calcularEstatisticas registros escalaId).consistencia ≤ 100) := by
  refine ⟨?_, ?_, ?_⟩
  · intro hz
    cases registros with
    | nil => rfl
    | cons r t =>
      simp only [calcularEstatisticas]
      rw [if_pos hz]
  · intro j hj
    cases registros with
    | nil => simp [jornadasValidas] at hj
    | cons r t =>
      simp only [calcularEstatisticas]
      rw [if_neg (by rw [hj]; simp)]
      show round (consistenciaReal (jornadasValidas (r :: t))) = 100
      rw [hj]
      unfold consistenciaReal
      rw [if_neg (by simp)]
      exact round_ofNat 100
  · intro hlen
    cases registros with
    | nil => simp [jornadasValidas] at hlen
    | cons r t =>
      have hne : jornadasValidas (r :: t) ≠ [] := by
        intro h
        rw [h] at hlen
        simp at hlen
      simp only [calcularEstatisticas]
      rw [if_neg hne]
      show round (consistenciaReal (jornadasValidas (r :: t))) =
          round (consistenciaSpec (jornadasValidas (r :: t))) ∧
        0 ≤ round (consistenciaReal (jornadasValidas (r :: t))) ∧
          round (consistenciaReal (jornadasValidas (r :: t))) ≤ 100
      have heq : consistenciaReal (jornadasValidas (r :: t)) =
          consistenciaSpec (jornadasValidas (r :: t)) :=
        consistenciaReal_eq_spec (by omega) (jornadasValidas_pos (r :: t))
      have hb := consistenciaReal_bounds (jornadasValidas (r :: t))
      have hr := round_bounds hb.1 hb.2
      exact ⟨by rw [heq], hr.1, hr.2⟩

/-- Witness for C7 at concrete inputs: the empty record list yields the
all-zero result, and a single 480-minute record yields consistencia 100. -/
theorem c7_witness :
    calcularEstatisticas [] (some "escala_6x1_7h".data) = estatisticasVazias ∧
      (calcularEstatisticas [⟨[], [], TimeInput.valido 0, TimeInput.valido 28800000⟩]
          (some "escala_6x1_7h".data)).consistencia = 100 :=
  ⟨(c7_calcularEstatisticas [] (some "escala_6x1_7h".data)).1 (by decide),
    (c7_calcularEstatisticas [⟨[], [], TimeInput.valido 0, TimeInput.valido 28800000⟩]
        (some "escala_6x1_7h".data)).2.1 480 (by decide)⟩

/-- C7 counterexample: for two qualifying records of 420 and 480 minutes the
code returns the integer 93, while the claim's exact formula
`max(0, 100 − 100·stddev/mean)` equals 280/3 = 93.33…, so the claimed
equality (without rounding) is false. -/
theorem c7_counterexample :
    (((calcularEstatisticas
          [⟨[], [], TimeInput.valido 0, TimeInput.valido 25200000⟩,
            ⟨[], [], TimeInput.valido 0, TimeInput.valido 28800000⟩]
          (some "escala_6x1_7h".data)).consistencia : ℝ)) ≠
      consistenciaSpec (jornadasValidas
        [⟨[], [], TimeInput.valido 0, TimeInput.valido 25200000⟩,
          ⟨[], [], TimeInput.valido 0, TimeInput.valido 28800000⟩]) := by
  have hj : jornadasValidas
      [⟨[], [], TimeInput.valido 0, TimeInput.valido 25200000⟩,
        ⟨[], [], TimeInput.valido 0, TimeInput.valido 28800000⟩] = [420, 480] := by decide
  have hmedia : mediaReal [420, 480] = 450 := by
    unfold mediaReal
    norm_num
  have hvar : varianciaReal [420, 480] = 900 := by
    unfold varianciaReal
    rw [hmedia]
    norm_num
  have hsd : desvioPadraoReal [420, 480] = 30 := by
    unfold desvioPadraoReal
    rw [hvar]
    rw [show (900 : ℝ) = 30 ^ 2 by norm_num]
    exact Real.sqrt_sq (by norm_num)
  have hspec : consistenciaSpec [420, 480] = 280 / 3 := by
    unfold consistenciaSpec
    rw [hsd, hmedia]
    rw [max_eq_right (by norm_num)]
    norm_num
  have hreal : consistenciaReal [420, 480] = 280 / 3 := by
    rw [consistenciaReal_eq_spec (by norm_num) (by norm_num), hspec]
  have hcons : (calcularEstatisticas
      [⟨[], [], TimeInput.valido 0, TimeInput.valido 25200000⟩,
        ⟨[], [], TimeInput.valido 0, TimeInput.valido 28800000⟩]
      (some "escala_6x1_7h".data)).consistencia = 93 := by
    simp only [calcularEstatisticas]
    rw [if_neg (by rw [hj]; simp)]
    show round (consistenciaReal (jornadasValidas _)) = 93
    rw [hj, hreal, round_eq]
    rw [show (280 : ℝ) / 3 + 1 / 2 = 563 / 6 by norm_num]
    rw [Int.floor_eq_iff]
    constructor <;> norm_num
  rw [hcons, hj, hspec]
  norm_num

/-! ## Claim C8 — CSV export/import round-trip

The proof is assembled from (i) character-class facts about every exported
cell, (ii) structural facts about quoted CSV lines, (iii) a step lemma per
exported line, and (iv) an induction over the record list. -/

theorem digit_campoLimpo {c : Char} (h : isDigitChar c = true) :
    c ≠ ',' ∧ c ≠ '"' ∧ isWS c = false :=
  ⟨(digit_not_banned h).2.1, (digit_not_banned h).2.2.1, (digit_not_banned h).1⟩

theorem mem_formatarData {c : Char} {s : Chars} (hc : c ∈ formatarData s) :
    isDigitChar c = true ∨ c = '/' := by
  unfold formatarData at hc
  rcases hpd : parseISODate s with _ | ⟨y, m, d⟩
  · rw [hpd] at hc
    simp at hc
  · rw [hpd] at hc
    dsimp only at hc
    rcases List.mem_append.1 hc with h | h
    · exact Or.inl (pad2_digits d c h)
    · rcases List.mem_cons.1 h with rfl | h
      · exact Or.inr rfl
      · rcases List.mem_append.1 h with h | h
        · exact Or.inl (pad2_digits m c h)
        · rcases List.mem_cons.1 h with rfl | h
          · exact Or.inr rfl
          · exact Or.inl (natStr_digits y c h)

theorem mem_formatarHora {c : Char} {t : TimeInput} (hc : c ∈ formatarHora t) :
    isDigitChar c = true ∨ c = ':' := by
  cases t with
  | vazio => simp [formatarHora] at hc
  | invalido => simp [formatarHora] at hc
  | valido v =>
    unfold formatarHora at hc
    dsimp only at hc
    rcases List.mem_append.1 hc with h | h
    · exact Or.inl (pad2_digits _ c h)
    · rcases List.mem_cons.1 h with rfl | h
      · exact Or.inr rfl
      · exact Or.inl (pad2_digits _ c h)

theorem mem_formatarMinutos {c : Char} {m : Int} (hc : c ∈ formatarMinutos m) :
    isDigitChar c = true ∨ c = ':' ∨ c = 'h' ∨ c = '+' ∨ c = '-' := by
  unfold formatarMinutos at hc
  by_cases hm : m = 0
  · rw [if_pos hm] at hc
    have hall : ∀ x ∈ "0:00h".data,
        isDigitChar x = true ∨ x = ':' ∨ x = 'h' ∨ x = '+' ∨ x = '-' := by decide
    exact hall c hc
  · rw [if_neg hm] at hc
    dsimp only at hc
    rcases List.mem_append.1 hc with h | h
    · rcases List.mem_append.1 h with h | h
      · by_cases hneg : m < 0
        · rw [if_pos hneg] at h
          rcases List.mem_singleton.1 h with rfl
          exact Or.inr (Or.inr (Or.inr (Or.inr rfl)))
        · rw [if_neg hneg] at h
          by_cases hpos : 0 < m
          · rw [if_pos hpos] at h
            rcases List.mem_singleton.1 h with rfl
            exact Or.inr (Or.inr (Or.inr (Or.inl rfl)))
          · rw [if_neg hpos] at h
            simp at h
      · exact Or.inl (natStr_digits _ c h)
    · rcases List.mem_cons.1 h with rfl | h
      · exact Or.inr (Or.inl rfl)
      · rcases List.mem_append.1 h with h | h
        · exact Or.inl (pad2_digits _ c h)
        · rcases List.mem_singleton.1 h with rfl
          exact Or.inr (Or.inr (Or.inl rfl))

theorem formatarData_semNL (s : Chars) : campoSemNL (formatarData s) := by
  intro c hc
  rcases mem_formatarData hc with h | rfl
  · exact (digit_not_banned h).2.2.2.1
  · decide

theorem formatarData_semMarcador (s : Chars) : campoSemMarcador (formatarData s) := by
  intro c hc
  rcases mem_formatarData hc with h | rfl
  · exact ⟨(digit_not_banned h).2.2.2.2.2.2.2.1, (digit_not_banned h).2.2.2.2.2.2.2.2⟩
  · exact ⟨by decide, by decide⟩

theorem formatarData_limpo (s : Chars) : campoLimpo (formatarData s) := by
  intro c hc
  rcases mem_formatarData hc with h | rfl
  · exact digit_campoLimpo h
  · exact ⟨by decide, by decide, by decide⟩

theorem formatarHora_semNL (t : TimeInput) : campoSemNL (formatarHora t) := by
  intro c hc
  rcases mem_formatarHora hc with h | rfl
  · exact (digit_not_banned h).2.2.2.1
  · decide

theorem formatarHora_semMarcador (t : TimeInput) : campoSemMarcador (formatarHora t) := by
  intro c hc
  rcases mem_formatarHora hc with h | rfl
  · exact ⟨(digit_not_banned h).2.2.2.2.2.2.2.1, (digit_not_banned h).2.2.2.2.2.2.2.2⟩
  · exact ⟨by decide, by decide⟩

theorem formatarHora_limpo (t : TimeInput) : campoLimpo (formatarHora t) := by
  intro c hc
  rcases mem_formatarHora hc with h | rfl
  · exact digit_campoLimpo h
  · exact ⟨by decide, by decide, by decide⟩

theorem formatarMinutos_semNL (m : Int) : campoSemNL (formatarMinutos m) := by
  intro c hc
  rcases mem_formatarMinutos hc with h | rfl | rfl | rfl | rfl
  · exact (digit_not_banned h).2.2.2.1
  all_goals decide

theorem formatarMinutos_semMarcador (m : Int) : campoSemMarcador (formatarMinutos m) := by
  intro c hc
  rcases mem_formatarMinutos hc with h | rfl | rfl | rfl | rfl
  · exact ⟨(digit_not_banned h).2.2.2.2.2.2.2.1, (digit_not_banned h).2.2.2.2.2.2.2.2⟩
  all_goals exact ⟨by decide, by decide⟩

theorem natStr_semNL (n : Nat) : campoSemNL (natStr n) := fun c hc =>
  (digit_not_banned (natStr_digits n c hc)).2.2.2.1

theorem diasField_semNL (a b : Nat) :
    campoSemNL (natStr a ++ '/' :: (natStr b ++ " dias".data)) := by
  intro c hc
  rcases List.mem_append.1 hc with h | h
  · exact natStr_semNL a c h
  · rcases List.mem_cons.1 h with rfl | h
    · decide
    · rcases List.mem_append.1 h with h | h
      · exact natStr_semNL b c h
      · have hall : ∀ x ∈ " dias".data, x ≠ '\n' := by decide
        exact hall c h

theorem escala_nome_semNL {e : Escala} (he : e ∈ ESCALAS_TRABALHO) : campoSemNL e.nome := by
  fin_cases he <;> decide

theorem escala_nome_semMarcador {e : Escala} (he : e ∈ ESCALAS_TRABALHO) :
    campoSemMarcador e.nome := by
  fin_cases he <;> decide

theorem escala_nome_semVirgula {e : Escala} (he : e ∈ ESCALAS_TRABALHO) : ',' ∉ e.nome := by
  fin_cases he <;> decide

theorem escala_descricao_semNL {e : Escala} (he : e ∈ ESCALAS_TRABALHO) :
    campoSemNL e.descricao := by
  fin_cases he <;> decide

theorem mem_linhaCSV {c : Char} {campos : List Chars} (h : c ∈ linhaCSV campos) :
    c = ',' ∨ c = '"' ∨ ∃ f ∈ campos, c ∈ f := by
  unfold linhaCSV at h
  rcases mem_joinSep h with h | ⟨qf, hqf, hc⟩
  · exact Or.inl h
  · rcases List.mem_map.1 hqf with ⟨f, hf, rfl⟩
    unfold quoteField at hc
    rcases List.mem_cons.1 hc with rfl | h'
    · exact Or.inr (Or.inl rfl)
    · rcases List.mem_append.1 h' with h' | h'
      · exact Or.inr (Or.inr ⟨f, hf, h'⟩)
      · rcases List.mem_singleton.1 h' with rfl
        exact Or.inr (Or.inl rfl)

theorem linhaCSV_shape (campos : List Chars) (h : campos ≠ []) :
    ∃ mid : Chars, linhaCSV campos = '"' :: (mid ++ ['"']) := by
  induction campos with
  | nil => exact absurd rfl h
  | cons f cs ih =>
    cases cs with
    | nil => exact ⟨f, rfl⟩
    | cons f' cs' =>
      rcases ih (by simp) with ⟨mid, hmid⟩
      refine ⟨f ++ ['"'] ++ ',' :: '"' :: mid, ?_⟩
      have hstep : linhaCSV (f :: f' :: cs') =
          quoteField f ++ ',' :: linhaCSV (f' :: cs') := by
        unfold linhaCSV
        rfl
      rw [hstep, hmid]
      unfold quoteField
      simp

theorem linhaCSV_nao_vazia (campos : List Chars) (h : campos ≠ []) :
    (linhaCSV campos).isEmpty = false := by
  rcases linhaCSV_shape campos h with ⟨mid, hmid⟩
  rw [hmid]
  rfl

theorem trim_linhaCSV (campos : List Chars) (h : campos ≠ []) :
    trimChars (linhaCSV campos) = linhaCSV campos := by
  rcases linhaCSV_shape campos h with ⟨mid, hmid⟩
  rw [hmid]
  apply trimChars_eq_self
  · intro c hc
    simp only [List.head?_cons, Option.some.injEq] at hc
    rw [← hc]
    decide
  · intro c hc
    rw [show ('"' :: (mid ++ ['"']) : Chars) = ('"' :: mid) ++ ['"'] by simp,
      List.getLast?_concat] at hc
    simp only [Option.some.injEq] at hc
    rw [← hc]
    decide

theorem linhaCSV_nao_tracos (campos : List Chars) (h : campos ≠ []) :
    leadsList "---".data (linhaCSV campos) = false := by
  rcases linhaCSV_shape campos h with ⟨mid, hmid⟩
  rw [hmid]
  rfl

theorem linhaCSV_semNL {campos : List Chars} (h : ∀ f ∈ campos, campoSemNL f) :
    '\n' ∉ linhaCSV campos := by
  intro hmem
  rcases mem_linhaCSV hmem with h' | h' | ⟨f, hf, hc⟩
  · exact absurd h' (by decide)
  · exact absurd h' (by decide)
  · exact h f hf '\n' hc rfl

theorem linhaCSV_sem_marcadores {campos : List Chars}
    (h : ∀ f ∈ campos, campoSemMarcador f) :
    containsSub "RESUMO".data (linhaCSV campos) = false ∧
      containsSub "CONFIGURAÇÃO".data (linhaCSV campos) = false := by
  have hU : 'U' ∉ linhaCSV campos := by
    intro hmem
    rcases mem_linhaCSV hmem with h' | h' | ⟨f, hf, hc⟩
    · exact absurd h' (by decide)
    · exact absurd h' (by decide)
    · exact (h f hf 'U' hc).1 rfl
  have hC : 'Ç' ∉ linhaCSV campos := by
    intro hmem
    rcases mem_linhaCSV hmem with h' | h' | ⟨f, hf, hc⟩
    · exact absurd h' (by decide)
    · exact absurd h' (by decide)
    · exact (h f hf 'Ç' hc).2 rfl
  exact ⟨containsSub_eq_false (by decide) hU, containsSub_eq_false (by decide) hC⟩

theorem campos_linhaCSV (campos : List Chars) (hne : campos ≠ [])
    (hvirg : ∀ f ∈ campos, ',' ∉ f) :
    splitSepList ',' (linhaCSV campos) = campos.map quoteField := by
  unfold linhaCSV
  apply splitSepList_joinSep
  · simpa using hne
  · intro qf hqf
    rcases List.mem_map.1 hqf with ⟨f, hf, rfl⟩
    intro hc
    unfold quoteField at hc
    rcases List.mem_cons.1 hc with h' | h'
    · exact absurd h'.symm (by decide)
    · rcases List.mem_append.1 h' with h' | h'
      · exact hvirg f hf h'
      · rcases List.mem_singleton.1 h' with h'
        exact absurd h' (by decide)

theorem limpaCampo_quoteField {f : Chars} (h : campoLimpo f) :
    limpaCampo (quoteField f) = f := by
  unfold limpaCampo quoteField
  have hfil : ('"' :: (f ++ ['"'])).filter (fun c => c ≠ '"') = f := by
    rw [List.filter_cons]
    rw [if_neg (by decide)]
    rw [List.filter_append]
    rw [List.filter_eq_self.2 (fun c hc => by simpa using (h c hc).2.1)]
    simp
  rw [hfil]
  apply trimChars_eq_self
  · intro c hc
    cases f with
    | nil => simp at hc
    | cons a t =>
      simp only [List.head?_cons, Option.some.injEq] at hc
      rw [← hc]
      exact (h a (List.mem_cons_self a t)).2.2
  · intro c hc
    rcases List.mem_getLast?_eq_getLast (Option.mem_def.2 hc) with ⟨hne', heq⟩
    rw [heq]
    exact (h _ (List.getLast_mem hne')).2.2

theorem containsSub_singleton_of_mem {x : Char} :
    ∀ {l : Chars}, x ∈ l → containsSub [x] l = true := by
  intro l
  induction l with
  | nil => intro h; simp at h
  | cons c t ih =>
    intro h
    rcases List.mem_cons.1 h with rfl | h
    · exact containsSub_of_leads (by simp [leadsList])
    · simp only [containsSub, Bool.or_eq_true]
      exact Or.inr (ih h)

theorem leads_tracos_digits {l r : Chars} (hd : ∀ c ∈ l, isDigitChar c = true) (hne : l ≠ []) :
    leadsList "---".data (l ++ r) = false := by
  cases l with
  | nil => exact absurd rfl hne
  | cons c t =>
    have hc : c ≠ '-' := (digit_not_banned (hd c (List.mem_cons_self c t))).2.2.2.2.1
    show leadsList ('-' :: "--".data) (c :: (t ++ r)) = false
    simp only [leadsList, Bool.and_eq_true, Bool.and_eq_false_iff, decide_eq_false_iff_not]
    left
    exact fun h => hc h.symm

theorem pad2_length {n : Nat} (h : n < 100) : (pad2 n).length = 2 := by
  unfold pad2
  by_cases h10 : n < 10
  · rw [if_pos h10]
    rw [natStr_unfold n, if_pos h10]
    rfl
  · rw [if_neg h10]
    rw [natStr_unfold n, if_neg h10]
    rw [natStr_unfold (n / 10), if_pos (by omega)]
    rfl

theorem padStart2_pad2 {n : Nat} (h : n < 100) : padStart2 (pad2 n) = pad2 n := by
  unfold padStart2
  rw [pad2_length h]
  rfl

theorem diasNoMes_le (mes ano : Nat) : diasNoMes mes ano ≤ 31 := by
  unfold diasNoMes
  by_cases h : mes < 12
  · interval_cases mes <;> (by_cases hb : bissexto ano <;> simp [hb])
  · rw [List.getD_eq_default]
    · omega
    · simp only [List.length_cons, List.length_nil]
      omega

theorem digits_no_sep {l : Chars} (hd : ∀ c ∈ l, isDigitChar c = true) :
    '-' ∉ l ∧ '/' ∉ l ∧ ':' ∉ l :=
  ⟨fun h => absurd (hd '-' h) (by decide), fun h => absurd (hd '/' h) (by decide),
    fun h => absurd (hd ':' h) (by decide)⟩

theorem minuteOfDay_reimport (y m d : Nat) (v : Int) :
    minuteOfDay (midnightMs y m d + ((minuteOfDay v).toNat / 60 : Nat) * 3600000 +
      ((minuteOfDay v).toNat % 60 : Nat) * 60000) = minuteOfDay v := by
  unfold minuteOfDay midnightMs
  have h0 : 0 ≤ v / 60000 % 1440 := Int.emod_nonneg _ (by norm_num)
  have h1 : v / 60000 % 1440 < 1440 := Int.emod_lt_of_pos _ (by norm_num)
  have hdiv : (((v / 60000 % 1440).toNat / 60 : Nat) : Int) =
      ((v / 60000 % 1440).toNat : Int) / 60 := rfl
  have hmod : (((v / 60000 % 1440).toNat % 60 : Nat) : Int) =
      ((v / 60000 % 1440).toNat : Int) % 60 := rfl
  have hMv : ((v / 60000 % 1440).toNat : Int) = v / 60000 % 1440 := Int.toNat_of_nonneg h0
  rw [hdiv, hmod, hMv]
  omega

theorem parseHoraCampo_formatarHora {y m d : Nat} (hval : dataValida y m d) (t : TimeInput)
    (hti : t ≠ TimeInput.invalido) :
    parseHoraCampo (isoChars y m d) (horaField t) =
      some (reimportaTempo (isoChars y m d) t) := by
  obtain ⟨h1000, h9999, hm1, hm12, hd1, hd2⟩ := hval
  have hpd : parseISODate (isoChars y m d) = some (y, m, d) :=
    parseISODate_isoChars hm1 hm12 hd1 hd2
  cases t with
  | invalido => exact absurd rfl hti
  | vazio => rfl
  | valido v =>
    show parseHoraCampo (isoChars y m d) (formatarHora (.valido v)) =
      some (reimportaTempo (isoChars y m d) (.valido v))
    unfold formatarHora parseHoraCampo reimportaTempo
    dsimp only
    rw [if_neg (by simp [pad2_ne_nil])]
    have hsplit : splitSepList ':'
        (pad2 ((minuteOfDay v).toNat / 60) ++ ':' :: pad2 ((minuteOfDay v).toNat % 60)) =
        [pad2 ((minuteOfDay v).toNat / 60), pad2 ((minuteOfDay v).toNat % 60)] := by
      rw [splitSepList_append_sep (digits_no_sep (pad2_digits _)).2.2]
      rw [splitSepList_sep_free (digits_no_sep (pad2_digits _)).2.2]
    rw [hsplit]
    show (match parseIntJS (pad2 ((minuteOfDay v).toNat / 60)),
        parseIntJS (pad2 ((minuteOfDay v).toNat % 60)) with
      | some hora, some minuto =>
        match parseISODate (isoChars y m d) with
        | some (y, m, d) =>
          some (TimeInput.valido (midnightMs y m d + hora * 3600000 + minuto * 60000))
        | none => none
      | _, _ => some TimeInput.vazio) =
      some (match parseISODate (isoChars y m d) with
        | some (y, m, d) =>
          TimeInput.valido (midnightMs y m d +
            ((minuteOfDay v).toNat / 60 : Nat) * 3600000 +
            ((minuteOfDay v).toNat % 60 : Nat) * 60000)
        | none => TimeInput.vazio)
    rw [parseIntJS_pad2, parseIntJS_pad2, hpd]

theorem horaField_limpo (t : TimeInput) : campoLimpo (horaField t) := by
  unfold horaField
  cases t with
  | vazio => intro c hc; simp at hc
  | invalido => exact formatarHora_limpo TimeInput.invalido
  | valido v => exact formatarHora_limpo (TimeInput.valido v)

theorem horaField_semNL (t : TimeInput) : campoSemNL (horaField t) := by
  unfold horaField
  cases t with
  | vazio => intro c hc; simp at hc
  | invalido => exact formatarHora_semNL TimeInput.invalido
  | valido v => exact formatarHora_semNL (TimeInput.valido v)

theorem horaField_semMarcador (t : TimeInput) : campoSemMarcador (horaField t) := by
  unfold horaField
  cases t with
  | vazio => intro c hc; simp at hc
  | invalido => exact formatarHora_semMarcador TimeInput.invalido
  | valido v => exact formatarHora_semMarcador (TimeInput.valido v)

theorem formatarData_semVirgula (s : Chars) : ',' ∉ formatarData s := fun h =>
  absurd ((formatarData_limpo s ',' h).1) (by simp)

theorem horaField_semVirgula (t : TimeInput) : ',' ∉ horaField t := fun h =>
  absurd ((horaField_limpo t ',' h).1) (by simp)

theorem formatarMinutos_semVirgula (m : Int) : ',' ∉ formatarMinutos m := by
  intro h
  rcases mem_formatarMinutos h with h' | h' | h' | h' | h'
  · exact absurd h' (by decide)
  all_goals exact absurd h' (by decide)

theorem minutosField_semNL (b : Bool) (m : Int) :
    campoSemNL (if b then formatarMinutos m else "0:00h".data) := by
  cases b
  · intro c hc
    have hall : ∀ x ∈ "0:00h".data, x ≠ '\n' := by decide
    exact hall c (by simpa using hc)
  · simpa using formatarMinutos_semNL m

/-- All seven cells of a data row are newline-free, marker-free and
comma-free. -/
theorem linhaRegistro_campos_seguros {escalaInfo : Escala}
    (hmem : escalaInfo ∈ ESCALAS_TRABALHO) (r : Registro) :
    ∀ f ∈ linhaRegistro escalaInfo r,
      campoSemNL f ∧ campoSemMarcador f ∧ ',' ∉ f := by
  intro f hf
  unfold linhaRegistro at hf
  simp only [List.mem_cons, List.not_mem_nil, or_false] at hf
  rcases hf with rfl | rfl | rfl | rfl | rfl | rfl | rfl
  · exact ⟨formatarData_semNL _, formatarData_semMarcador _, formatarData_semVirgula _⟩
  · exact ⟨horaField_semNL _, horaField_semMarcador _, horaField_semVirgula _⟩
  · exact ⟨horaField_semNL _, horaField_semMarcador _, horaField_semVirgula _⟩
  · refine ⟨?_, ?_, ?_⟩
    · split_ifs with h1
      · exact formatarMinutos_semNL _
      · intro c hc
        have hall : ∀ x ∈ "0:00h".data, x ≠ '\n' := by decide
        exact hall c hc
    · split_ifs with h1
      · exact formatarMinutos_semMarcador _
      · intro c hc
        have hall : ∀ x ∈ "0:00h".data, x ≠ 'U' ∧ x ≠ 'Ç' := by decide
        exact hall c hc
    · split_ifs with h1
      · exact formatarMinutos_semVirgula _
      · intro hc
        have hall : ∀ x ∈ "0:00h".data, x ≠ ',' := by decide
        exact hall ',' hc rfl
  · refine ⟨?_, ?_, ?_⟩
    · split_ifs with h1
      · exact formatarMinutos_semNL _
      · intro c hc
        have hall : ∀ x ∈ "0:00h".data, x ≠ '\n' := by decide
        exact hall c hc
    · split_ifs with h1
      · exact formatarMinutos_semMarcador _
      · intro c hc
        have hall : ∀ x ∈ "0:00h".data, x ≠ 'U' ∧ x ≠ 'Ç' := by decide
        exact hall c hc
    · split_ifs with h1
      · exact formatarMinutos_semVirgula _
      · intro hc
        have hall : ∀ x ∈ "0:00h".data, x ≠ ',' := by decide
        exact hall ',' hc rfl
  · refine ⟨?_, ?_, ?_⟩ <;> (split_ifs with h1 h2 h3) <;> decide
  · exact ⟨escala_nome_semNL hmem, escala_nome_semMarcador hmem, escala_nome_semVirgula hmem⟩

theorem processaLinha_registro {y m d : Nat} (hval : dataValida y m d)
    (e s : TimeInput) (hent : e ≠ TimeInput.invalido) (hsai : s ≠ TimeInput.invalido)
    (resto : List Chars) :
    processaLinha (formatarData (isoChars y m d) ::
        horaField e :: horaField s :: resto) =
      some (isoChars y m d, reimportaTempo (isoChars y m d) e,
        reimportaTempo (isoChars y m d) s) := by
  obtain ⟨h1000, h9999, hm1, hm12, hd1, hd2⟩ := hval
  have hfd : formatarData (isoChars y m d) = pad2 d ++ '/' :: (pad2 m ++ '/' :: natStr y) := by
    unfold formatarData
    rw [parseISODate_isoChars hm1 hm12 hd1 hd2]
  have hconv : converteData (formatarData (isoChars y m d)) = some (isoChars y m d) := by
    rw [hfd]
    unfold converteData
    rw [if_pos (containsSub_singleton_of_mem (by simp))]
    rw [splitSepList_append_sep (digits_no_sep (pad2_digits d)).2.1,
      splitSepList_append_sep (digits_no_sep (pad2_digits m)).2.1,
      splitSepList_sep_free (digits_no_sep (natStr_digits y)).2.1]
    dsimp only [List.headD]
    rw [padStart2_pad2 (show m < 100 by omega),
      padStart2_pad2 (show d < 100 by have := diasNoMes_le (m - 1) y; omega)]
    rfl
  unfold processaLinha
  dsimp only [List.getD_cons_zero, List.getD_cons_succ]
  rw [hconv]
  dsimp only
  rw [parseHoraCampo_formatarHora ⟨h1000, h9999, hm1, hm12, hd1, hd2⟩ e hent]
  dsimp only
  rw [parseHoraCampo_formatarHora ⟨h1000, h9999, hm1, hm12, hd1, hd2⟩ s hsai]

theorem tempoEquivalente_reimporta {y m d : Nat} (hval : dataValida y m d) {t : TimeInput}
    (hti : t ≠ TimeInput.invalido) :
    tempoEquivalente t (reimportaTempo (isoChars y m d) t) := by
  obtain ⟨h1000, h9999, hm1, hm12, hd1, hd2⟩ := hval
  have hpd : parseISODate (isoChars y m d) = some (y, m, d) :=
    parseISODate_isoChars hm1 hm12 hd1 hd2
  cases t with
  | invalido => exact absurd rfl hti
  | vazio => trivial
  | valido v =>
    unfold reimportaTempo
    rw [hpd]
    show minuteOfDay (midnightMs y m d + ((minuteOfDay v).toNat / 60 : Nat) * 3600000 +
        ((minuteOfDay v).toNat % 60 : Nat) * 60000) = minuteOfDay v
    exact minuteOfDay_reimport y m d v

theorem importaLinhas_skip {linha : Chars} (g : Nat → Chars) (i : Nat) (rest : List Chars)
    (h : (trimChars linha).isEmpty = true ∨
      leadsList "---".data (trimChars linha) = true ∨
      containsSub "RESUMO".data (trimChars linha) = true ∨
      containsSub "CONFIGURAÇÃO".data (trimChars linha) = true) :
    importaLinhas g i (linha :: rest) = importaLinhas g (i + 1) rest := by
  simp only [importaLinhas]
  rw [if_pos]
  simp only [Bool.or_eq_true]
  tauto

theorem containsSub_first_field {n f0 : Chars} {outros : List Chars}
    (h : containsSub n f0 = true) : containsSub n (linhaCSV (f0 :: outros)) = true := by
  have key : ∀ tail : Chars, containsSub n ('"' :: (f0 ++ tail)) = true := by
    intro tail
    have h1 : containsSub n (f0 ++ tail) = true := containsSub_extend_right h
    have h2 : containsSub n (['"'] ++ (f0 ++ tail)) = true := containsSub_append_left h1
    simpa using h2
  cases outros with
  | nil => exact key ['"']
  | cons o os =>
    have hstep : linhaCSV (f0 :: o :: os) =
        '"' :: (f0 ++ (['"'] ++ ',' :: linhaCSV (o :: os))) := by
      show quoteField f0 ++ ',' :: linhaCSV (o :: os) = _
      unfold quoteField
      simp
    rw [hstep]
    exact key _

theorem importaLinhas_resumo (escalaInfo : Escala) (resumo : Resumo) (g : Nat → Chars)
    (i : Nat) (rest : List Chars) :
    importaLinhas g i (linhaCSV (linhaResumo escalaInfo resumo) :: rest) =
      importaLinhas g (i + 1) rest := by
  apply importaLinhas_skip
  right; right; left
  rw [trim_linhaCSV _ (by unfold linhaResumo; simp)]
  unfold linhaResumo
  apply containsSub_first_field
  have hdecomp : "--- RESUMO DO PERÍODO ---".data =
      "--- ".data ++ ("RESUMO".data ++ " DO PERÍODO ---".data) := by decide
  rw [hdecomp]
  exact containsSub_append_left (containsSub_extend_right (by
    exact containsSub_of_leads (leadsList_append _ [])))

theorem importaLinhas_config (escalaInfo : Escala) (g : Nat → Chars)
    (i : Nat) (rest : List Chars) :
    importaLinhas g i (linhaCSV (linhaConfigEscala escalaInfo) :: rest) =
      importaLinhas g (i + 1) rest := by
  apply importaLinhas_skip
  right; right; right
  rw [trim_linhaCSV _ (by unfold linhaConfigEscala; simp)]
  unfold linhaConfigEscala
  apply containsSub_first_field
  have hdecomp : "--- CONFIGURAÇÃO DA ESCALA ---".data =
      "--- ".data ++ ("CONFIGURAÇÃO".data ++ " DA ESCALA ---".data) := by decide
  rw [hdecomp]
  exact containsSub_append_left (containsSub_extend_right (by
    exact containsSub_of_leads (leadsList_append _ [])))

theorem importaLinhas_blank (g : Nat → Chars) (i : Nat) (rest : List Chars) :
    importaLinhas g i (linhaCSV [[]] :: rest) = importaLinhas g (i + 1) rest := by
  have hline : linhaCSV [[]] = ['"', '"'] := rfl
  rw [hline]
  simp only [importaLinhas]
  rw [if_neg (by decide)]
  rw [if_neg (by decide)]

theorem importaLinhas_registro {escalaInfo : Escala} (hmem : escalaInfo ∈ ESCALAS_TRABALHO)
    {r : Registro} (hbf : registroBemFormado r) (g : Nat → Chars) (i : Nat)
    (rest : List Chars) :
    importaLinhas g i (linhaCSV (linhaRegistro escalaInfo r) :: rest) =
      reimportaRegistro (g i) r :: importaLinhas g (i + 1) rest := by
  obtain ⟨⟨y, m, d, hval, hdata⟩, hent, hsai⟩ := hbf
  have hseg := linhaRegistro_campos_seguros hmem r
  have hne7 : linhaRegistro escalaInfo r ≠ [] := by unfold linhaRegistro; simp
  have hfd : formatarData r.data = pad2 d ++ '/' :: (pad2 m ++ '/' :: natStr y) := by
    unfold formatarData
    rw [hdata, parseISODate_isoChars hval.2.2.1 hval.2.2.2.1 hval.2.2.2.2.1 hval.2.2.2.2.2]
  have hfd_ne : formatarData r.data ≠ [] := by
    rw [hfd]
    simp [pad2_ne_nil]
  have hcampos : (splitSepList ',' (linhaCSV (linhaRegistro escalaInfo r))).map limpaCampo =
      formatarData r.data :: horaField r.entrada :: horaField r.saida ::
        (limpaCampo (quoteField (if 0 < calcularHorasTrabalhadas r.entrada r.saida then
          formatarMinutos (calcularHorasTrabalhadas r.entrada r.saida) else "0:00h".data))) ::
        (limpaCampo (quoteField (if 0 < calcularHorasTrabalhadas r.entrada r.saida then
          formatarMinutos (if 0 < calcularHorasTrabalhadas r.entrada r.saida then
            calcularHorasTrabalhadas r.entrada r.saida - escalaInfo.horasPorDia else 0)
          else "0:00h".data))) ::
        (limpaCampo (quoteField (if calcularHorasTrabalhadas r.entrada r.saida = 0 then
          "Sem Registro".data
          else if 0 < (if 0 < calcularHorasTrabalhadas r.entrada r.saida then
            calcularHorasTrabalhadas r.entrada r.saida - escalaInfo.horasPorDia else 0) then
            "Hora Extra".data
          else if (if 0 < calcularHorasTrabalhadas r.entrada r.saida then
            calcularHorasTrabalhadas r.entrada r.saida - escalaInfo.horasPorDia else 0) < 0 then
            "Débito".data
          else "Normal".data))) ::
        (limpaCampo (quoteField escalaInfo.nome)) :: [] := by
    rw [campos_linhaCSV _ hne7 (fun f hf => (hseg f hf).2.2), List.map_map]
    unfold linhaRegistro
    simp only [List.map_cons, List.map_nil, Function.comp_apply]
    rw [limpaCampo_quoteField (formatarData_limpo _),
      limpaCampo_quoteField (horaField_limpo _), limpaCampo_quoteField (horaField_limpo _)]
  simp only [importaLinhas]
  rw [trim_linhaCSV _ hne7]
  rw [if_neg (by
    rw [linhaCSV_nao_vazia _ hne7, linhaCSV_nao_tracos _ hne7,
      (linhaCSV_sem_marcadores (fun f hf => (hseg f hf).2.1)).1,
      (linhaCSV_sem_marcadores (fun f hf => (hseg f hf).2.1)).2]
    simp)]
  rw [hcampos]
  rw [if_pos ⟨by simp, by simpa using hfd_ne, by
    rw [hfd]
    exact leads_tracos_digits (pad2_digits d) (pad2_ne_nil d)⟩]
  have hproc : processaLinha (formatarData r.data :: horaField r.entrada ::
      horaField r.saida ::
      (limpaCampo (quoteField (if 0 < calcularHorasTrabalhadas r.entrada r.saida then
        formatarMinutos (calcularHorasTrabalhadas r.entrada r.saida) else "0:00h".data))) ::
      (limpaCampo (quoteField (if 0 < calcularHorasTrabalhadas r.entrada r.saida then
        formatarMinutos (if 0 < calcularHorasTrabalhadas r.entrada r.saida then
          calcularHorasTrabalhadas r.entrada r.saida - escalaInfo.horasPorDia else 0)
        else "0:00h".data))) ::
      (limpaCampo (quoteField (if calcularHorasTrabalhadas r.entrada r.saida = 0 then
        "Sem Registro".data
        else if 0 < (if 0 < calcularHorasTrabalhadas r.entrada r.saida then
          calcularHorasTrabalhadas r.entrada r.saida - escalaInfo.horasPorDia else 0) then
          "Hora Extra".data
        else if (if 0 < calcularHorasTrabalhadas r.entrada r.saida then
          calcularHorasTrabalhadas r.entrada r.saida - escalaInfo.horasPorDia else 0) < 0 then
          "Débito".data
        else "Normal".data))) ::
      (limpaCampo (quoteField escalaInfo.nome)) :: []) =
      some (r.data, reimportaTempo r.data r.entrada, reimportaTempo r.data r.saida) := by
    rw [hdata]
    exact processaLinha_registro hval r.entrada r.saida hent hsai _
  rw [hproc]
  rfl

theorem importaLinhas_nil (g : Nat → Chars) (i : Nat) : importaLinhas g i [] = [] := rfl

theorem importaLinhas_trailer (escalaInfo : Escala) (resumo : Resumo) (g : Nat → Chars)
    (i : Nat) :
    importaLinhas g i [linhaCSV [[]], linhaCSV (linhaResumo escalaInfo resumo),
      linhaCSV [[]], linhaCSV (linhaConfigEscala escalaInfo)] = [] := by
  rw [importaLinhas_blank, importaLinhas_resumo, importaLinhas_blank, importaLinhas_config]
  rfl

theorem importaLinhas_exportRows {escalaInfo : Escala} (hmem : escalaInfo ∈ ESCALAS_TRABALHO)
    (g : Nat → Chars) :
    ∀ (regs : List Registro) (i : Nat) (rest : List Chars),
      (∀ r ∈ regs, registroBemFormado r) →
      importaLinhas g i (regs.map (fun r => linhaCSV (linhaRegistro escalaInfo r)) ++ rest) =
        esperadoImport g i regs ++ importaLinhas g (i + regs.length) rest := by
  intro regs
  induction regs with
  | nil =>
    intro i rest _
    simp [esperadoImport]
  | cons r rs ih =>
    intro i rest hbf
    simp only [List.map_cons, List.cons_append]
    rw [importaLinhas_registro hmem (hbf r (List.mem_cons_self r rs)) g i]
    rw [ih (i + 1) rest (fun x hx => hbf x (List.mem_cons_of_mem r hx))]
    have harith : i + 1 + rs.length = i + (r :: rs).length := by simp; omega
    rw [harith]
    rfl

theorem linhaResumo_semNL {escalaInfo : Escala} (hmem : escalaInfo ∈ ESCALAS_TRABALHO)
    (resumo : Resumo) : ∀ f ∈ linhaResumo escalaInfo resumo, campoSemNL f := by
  intro f hf
  unfold linhaResumo at hf
  simp only [List.mem_cons, List.not_mem_nil, or_false] at hf
  rcases hf with rfl | rfl | rfl | rfl | rfl | rfl | rfl
  · decide
  · intro c hc; simp at hc
  · intro c hc; simp at hc
  · exact formatarMinutos_semNL _
  · exact formatarMinutos_semNL _
  · exact diasField_semNL _ _
  · exact escala_nome_semNL hmem

theorem linhaConfigEscala_semNL {escalaInfo : Escala} (hmem : escalaInfo ∈ ESCALAS_TRABALHO) :
    ∀ f ∈ linhaConfigEscala escalaInfo, campoSemNL f := by
  intro f hf
  unfold linhaConfigEscala at hf
  simp only [List.mem_cons, List.not_mem_nil, or_false] at hf
  rcases hf with rfl | rfl | rfl | rfl | rfl | rfl | rfl
  · decide
  · exact escala_nome_semNL hmem
  · exact escala_descricao_semNL hmem
  · intro c hc
    rcases List.mem_append.1 hc with h | h
    · exact natStr_semNL _ c h
    · have hall : ∀ x ∈ "h/dia".data, x ≠ '\n' := by decide
      exact hall c h
  · intro c hc
    rcases List.mem_append.1 hc with h | h
    · exact natStr_semNL _ c h
    · have hall : ∀ x ∈ "h/semana".data, x ≠ '\n' := by decide
      exact hall c h
  · intro c hc; simp at hc
  · intro c hc; simp at hc

theorem splitLines_export (registros : List Registro) (resumo : Resumo)
    (escalaId : Option Chars) :
    splitSepList '\n' (exportarDados registros resumo escalaId) =
      exportLines registros resumo escalaId := by
  have hmem := obterEscalaInfo_mem escalaId
  unfold exportarDados
  apply splitSepList_joinSep
  · unfold exportLines
    simp
  · intro line hline
    unfold exportLines at hline
    rcases List.mem_map.1 hline with ⟨campos, hcampos, rfl⟩
    apply linhaCSV_semNL
    simp only [List.mem_cons, List.mem_append, List.mem_map] at hcampos
    rcases hcampos with rfl | ⟨r, _, rfl⟩ | rfl | rfl | rfl | rfl | habs
    · intro f hf
      have hall : ∀ x ∈ cabecalhoCSV, campoSemNL x := by decide
      exact hall f hf
    · exact fun f hf => (linhaRegistro_campos_seguros hmem r f hf).1
    · intro f hf
      simp only [List.mem_singleton] at hf
      subst hf
      intro c hc
      simp at hc
    · exact linhaResumo_semNL hmem resumo
    · intro f hf
      simp only [List.mem_singleton] at hf
      subst hf
      intro c hc
      simp at hc
    · exact linhaConfigEscala_semNL hmem
    · simp at habs

theorem forall2_esperado (g : Nat → Chars) :
    ∀ (regs : List Registro) (i : Nat), (∀ r ∈ regs, registroBemFormado r) →
      List.Forall₂ registroEquivalente regs (esperadoImport g i regs) := by
  intro regs
  induction regs with
  | nil => intro i _; exact List.Forall₂.nil
  | cons r rs ih =>
    intro i hbf
    refine List.Forall₂.cons ?_ (ih (i + 1) (fun x hx => hbf x (List.mem_cons_of_mem r hx)))
    obtain ⟨⟨y, m, d, hval, hdata⟩, hent, hsai⟩ := hbf r (List.mem_cons_self r rs)
    refine ⟨rfl, ?_, ?_⟩
    · show tempoEquivalente r.entrada (reimportaTempo r.data r.entrada)
      rw [hdata]
      exact tempoEquivalente_reimporta hval hent
    · show tempoEquivalente r.saida (reimportaTempo r.data r.saida)
      rw [hdata]
      exact tempoEquivalente_reimporta hval hsai

/-- C8: exporting a record set to CSV and re-importing the file (with the
replacement confirmed) produces an equivalent record set — the same dates,
and entry/exit times equal within the one-minute precision of the CSV time
format.  Records are those of the data model: canonical calendar dates and
optional (parseable) timestamps.  An empty set exports no data rows, its
re-import is rejected, and the (empty) record set is likewise unchanged. -/
theorem c8_exportar_importar (registros : List Registro) (resumo : Resumo)
    (escalaId : Option Chars) (idGen : Nat → Chars)
    (hbf : ∀ r ∈ registros, registroBemFormado r) :
    List.Forall₂ registroEquivalente registros
      (aplicaImportacao registros idGen (exportarDados registros resumo escalaId)) := by
  have hmem := obterEscalaInfo_mem escalaId
  have hlines := splitLines_export registros resumo escalaId
  have hexp : exportLines registros resumo escalaId =
      linhaCSV cabecalhoCSV ::
        (registros.map (fun r => linhaCSV (linhaRegistro (obterEscalaInfo escalaId) r)) ++
          [linhaCSV [[]], linhaCSV (linhaResumo (obterEscalaInfo escalaId) resumo),
            linhaCSV [[]], linhaCSV (linhaConfigEscala (obterEscalaInfo escalaId))]) := by
    unfold exportLines
    simp [List.map_append, List.map_map, Function.comp]
  have hrows : importaLinhas idGen 1
      (registros.map (fun r => linhaCSV (linhaRegistro (obterEscalaInfo escalaId) r)) ++
        [linhaCSV [[]], linhaCSV (linhaResumo (obterEscalaInfo escalaId) resumo),
          linhaCSV [[]], linhaCSV (linhaConfigEscala (obterEscalaInfo escalaId))]) =
      esperadoImport idGen 1 registros := by
    rw [importaLinhas_exportRows hmem idGen registros 1 _ hbf]
    rw [importaLinhas_trailer]
    simp
  have htem : temColunasBasicas (exportarDados registros resumo escalaId) = true := by
    unfold temColunasBasicas
    rw [hlines, hexp, List.headD_cons]
    decide
  have himp : importarDados idGen (exportarDados registros resumo escalaId) =
      if esperadoImport idGen 1 registros = [] then none
      else some (esperadoImport idGen 1 registros) := by
    unfold importarDados
    rw [hlines, hexp]
    rw [if_neg (by simp)]
    rw [if_neg (by rw [htem]; decide)]
    dsimp only [List.drop_succ_cons, List.drop_zero]
    rw [hrows]
  unfold aplicaImportacao
  rw [himp]
  cases hreg : registros with
  | nil =>
    rw [if_pos (show esperadoImport idGen 1 ([] : List Registro) = [] from rfl)]
    exact List.Forall₂.nil
  | cons r rs =>
    rw [if_neg (by simp [esperadoImport])]
    exact forall2_esperado idGen (r :: rs) 1 (hreg ▸ hbf)

/-- Witness for C8 at a concrete input: one record of 05 March 2024 with a
08:00–17:30 shift round-trips to the same date and the same clock times. -/
theorem c8_witness :
    List.Forall₂ registroEquivalente
      [⟨"a".data, isoChars 2024 3 5,
        TimeInput.valido (midnightMs 2024 3 5 + 8 * 3600000),
        TimeInput.valido (midnightMs 2024 3 5 + 17 * 3600000 + 30 * 60000)⟩]
      (aplicaImportacao
        [⟨"a".data, isoChars 2024 3 5,
          TimeInput.valido (midnightMs 2024 3 5 + 8 * 3600000),
          TimeInput.valido (midnightMs 2024 3 5 + 17 * 3600000 + 30 * 60000)⟩]
        (fun _ => "b".data)
        (exportarDados
          [⟨"a".data, isoChars 2024 3 5,
            TimeInput.valido (midnightMs 2024 3 5 + 8 * 3600000),
            TimeInput.valido (midnightMs 2024 3 5 + 17 * 3600000 + 30 * 60000)⟩]
          ⟨90, 0, 90, 570, 26, 1, 10920⟩ (some "escala_6x1_7h".data))) :=
  c8_exportar_importar _ ⟨90, 0, 90, 570, 26, 1, 10920⟩ (some "escala_6x1_7h".data)
    (fun _ => "b".data)
    (by
      intro r hr
      rcases List.mem_singleton.1 hr with rfl
      exact ⟨⟨2024, 3, 5, by decide, rfl⟩, by decide, by decide⟩)

/-! ## Claim C10 — chart point invariants -/

/-- C10: in every produced chart point, overtime and deficit are never both
positive, and a point with `temRegistro = false` has zero worked minutes,
zero overtime, zero deficit and status `sem-registro`. -/
theorem c10_gerarDadosGraficos (registros : List Registro) (mes ano : Nat)
    (escalaId : Option Chars) (p : DadoDia)
    (hp : p ∈ gerarDadosGraficos registros mes ano escalaId) :
    ¬(0 < p.horasExtras ∧ 0 < p.horasDebito) ∧
    (p.temRegistro = false →
      p.horasTrabalhadas = 0 ∧ p.horasExtras = 0 ∧ p.horasDebito = 0 ∧
        p.status = "sem-registro".data) := by
  unfold gerarDadosGraficos at hp
  rcases List.mem_map.1 hp with ⟨i, _, rfl⟩
  unfold dadoDoDia
  dsimp only
  rcases hcase : registros.find? (fun registro => registro.data == isoChars ano (mes + 1) (i + 1))
    with _ | r
  · rw [hcase]
    dsimp only
    exact ⟨by rintro ⟨hx, hd⟩; simp at hx hd, fun _ => ⟨rfl, rfl, rfl, rfl⟩⟩
  · rw [hcase]
    dsimp only
    constructor
    · rintro ⟨hx, hd⟩
      split_ifs at hx hd <;> omega
    · intro htem
      simp at htem

/-- Witness for C10 at a concrete input: the first chart point of January
2024 with no records. -/
theorem c10_witness :
    ¬(0 < (⟨1, "01/01".data, "2024-01-01".data, 0, 0, 0, 420, false,
        "sem-registro".data⟩ : DadoDia).horasExtras ∧
      0 < (⟨1, "01/01".data, "2024-01-01".data, 0, 0, 0, 420, false,
        "sem-registro".data⟩ : DadoDia).horasDebito) ∧
    ((⟨1, "01/01".data, "2024-01-01".data, 0, 0, 0, 420, false,
        "sem-registro".data⟩ : DadoDia).temRegistro = false →
      (⟨1, "01/01".data, "2024-01-01".data, 0, 0, 0, 420, false,
        "sem-registro".data⟩ : DadoDia).horasTrabalhadas = 0 ∧
      (⟨1, "01/01".data, "2024-01-01".data, 0, 0, 0, 420, false,
        "sem-registro".data⟩ : DadoDia).horasExtras = 0 ∧
      (⟨1, "01/01".data, "2024-01-01".data, 0, 0, 0, 420, false,
        "sem-registro".data⟩ : DadoDia).horasDebito = 0 ∧
      (⟨1, "01/01".data, "2024-01-01".data, 0, 0, 0, 420, false,
        "sem-registro".data⟩ : DadoDia).status = "sem-registro".data) :=
  c10_gerarDadosGraficos [] 0 2024 none _ (by decide)

end HorasExtras
